import Mathlib

/-!
# The Clerk of HummingbirdDS (ChubbyGo): dispatch, race, decide, retry

A shallow embedding of the client sessions of `src/BaseServer/kvclient.go`,
`src/BaseServer/lockclient.go` and `src/KvServer/kvclient.go`.

Every operation of the Clerk is an unbounded `for` loop.  One pass through the
body of that loop is a pure function of the Clerk and of what the outside world
does during the pass: the content of the shared reachability slice when it is
loaded, and the way the race between the RPC and the 200 ms timer ends.  That
outside world is an `Env`; an operation is run over a finite list of them, one
per pass, so that the run is total and returns `running` when the list is
used up before the loop has left.

The race is embedded by its result (`Outcome`): the timer fires first, or `Call` comes
back first, with or without an error.  A call that is abandoned after a timeout is not
followed any further.  Where the goroutine calls `log.Fatal` on a call error the process
exits (`Step.fatal`); run-time panics (division by zero for an empty server list, an index
out of range) end the run as `Step.crash`.

`MakeClerk` takes what its two outside sources yield, the random source and the identity
source of package `Flake`, as arguments.  A caller that uses a Clerk for several operations
in turn is a `session`.

Go's `int` is embedded as `Int`.  The only arithmetic is `%` by the number of
servers (truncated, `Int.tmod`) and `++`.  The hint is incremented only right
after it was reduced below the number of servers, and `seq` counts the
operations completed since `MakeClerk` set it to 1, so neither increment is
taken near the 64-bit bound and `++` is `+ 1`.
-/

namespace Hummingbird

/-! ## Data model -/

/-- Status carried by every reply: a Go string type, the zero value is `""`. -/
abbrev Err := String

/-- Modelled from the spec: the constant `OK` is declared outside the shown
sources; section 6 of the spec lists the eight statuses as a closed set of
distinct values. -/
abbrev OK : Err := "OK"
/-- Modelled from the spec: status constant `ErrNoKey` (declared outside the shown sources). -/
abbrev ErrNoKey : Err := "ErrNoKey"
/-- Modelled from the spec: status constant `Duplicate` (declared outside the shown sources). -/
abbrev Duplicate : Err := "Duplicate"
/-- Modelled from the spec: status constant `ReElection` (declared outside the shown sources). -/
abbrev ReElection : Err := "ReElection"
/-- Modelled from the spec: status constant `NoLeader` (declared outside the shown sources). -/
abbrev NoLeader : Err := "NoLeader"
/-- Modelled from the spec: status constant `OpenError` (declared outside the shown sources). -/
abbrev OpenError : Err := "OpenError"
/-- Modelled from the spec: status constant `CreateError` (declared outside the shown sources). -/
abbrev CreateError : Err := "CreateError"
/-- Modelled from the spec: status constant `AcquireError` (declared outside the shown sources). -/
abbrev AcquireError : Err := "AcquireError"

/-- The struct `Clerk` (the same five fields in both packages).  `servers` holds
the opaque rpc client handles, `serversIsOk` is the pointer to the shared
reachability slice: the slice itself belongs to the outside world (`Env`). -/
structure Clerk where
  servers : List Nat
  leader : Int
  seq : Int
  ClientID : Nat
  serversIsOk : Nat
deriving DecidableEq, Repr

/-- The handle `FileDescriptor{InstanceSeq, PathName}` (field order of the
positional literals in `Open` and `Create`). -/
structure FileDescriptor where
  InstanceSeq : Nat
  PathName : String
deriving DecidableEq, Repr

/-- Fields of the literal `&GetArgs{...}`. -/
structure GetArgs where
  Key : String
  ClientID : Nat
  SeqNo : Int
deriving DecidableEq, Repr

/-- Fields of the literal `&PutAppendArgs{...}`. -/
structure PutAppendArgs where
  Key : String
  Value : String
  Op : String
  ClientID : Nat
  SeqNo : Int
deriving DecidableEq, Repr

/-- Fields of the literal `&OpenArgs{...}`. -/
structure OpenArgs where
  PathName : String
  ClientID : Nat
  SeqNo : Int
deriving DecidableEq, Repr

/-- Fields of the literal `&CreateArgs{...}`. -/
structure CreateArgs where
  PathName : String
  ClientID : Nat
  SeqNo : Int
  InstanceSeq : Nat
  FileType : Int
  FileName : String
deriving DecidableEq, Repr

/-- Fields of the literal `&CloseArgs{...}`. -/
structure CloseArgs where
  PathName : String
  ClientID : Nat
  SeqNo : Int
  InstanceSeq : Nat
  FileName : String
  opType : Int
deriving DecidableEq, Repr

/-- Fields of the literal `&AcquireArgs{...}`. -/
structure AcquireArgs where
  PathName : String
  ClientID : Nat
  SeqNo : Int
  InstanceSeq : Nat
  FileName : String
  LockType : Int
deriving DecidableEq, Repr

/-- What is handed to `Call`: the method (`"RaftKV.Get"`, ...) with its arguments. -/
inductive Request where
  | Get (args : GetArgs)
  | PutAppend (args : PutAppendArgs)
  | Open (args : OpenArgs)
  | Create (args : CreateArgs)
  | Delete (args : CloseArgs)
  | Acquire (args : AcquireArgs)
deriving DecidableEq, Repr

/-- The reply slot.  The six reply structs are declared outside the shown
sources; the clients read `Err` of all of them, `Value` of `GetReply` and
`InstanceSeq` of `OpenReply`, `CreateReply` and `AcquireReply`.  One record
with these three fields stands for all six. -/
structure Reply where
  Err : Err
  Value : String
  InstanceSeq : Nat
deriving DecidableEq, Repr

/-- How the `select` of one attempt ends: the 200 ms timer fires first, or the
goroutine finishes `Call` first, with `err != nil` or not, and whatever the
reply slot holds at that moment. -/
inductive Outcome where
  | timeout
  | replyArrival (err : Bool) (reply : Reply)
deriving DecidableEq, Repr

/-- The outside world during one pass through the loop body: the content of
`*ck.serversIsOk` at the atomic load, and the transport, addressed by server
index and request. -/
structure Env where
  serversIsOk : List Int
  call : Nat → Request → Outcome

/-- An RPC that was issued: the index of the server and the request. -/
structure Dispatch where
  index : Nat
  request : Request
deriving DecidableEq, Repr

/-- The values the six operations return. -/
inductive Ret where
  | Get (value : String)
  | PutAppend
  | Open (ok : Bool) (fd : Option FileDescriptor)
  | Create (ok : Bool) (fd : Option FileDescriptor)
  | Delete (ok : Bool)
  | Acquire (ok : Bool) (instanceSeq : Nat)
deriving DecidableEq, Repr

/-- The end of one pass through a loop body: go round again (`next`, after a
skip when nothing was sent), leave through `return`, leave the process through
`log.Fatal`, or stop on a run-time panic (division by zero, index out of range). -/
inductive Step where
  | next (ck : Clerk) (sent : Option Dispatch)
  | ret (ck : Clerk) (v : Ret) (sent : Dispatch)
  | fatal (ck : Clerk) (sent : Dispatch)
  | crash
deriving DecidableEq, Repr

/-- The first lines of every loop body, up to the dispatch. -/
inductive Selected where
  | crash
  | skip (ck : Clerk)
  | dispatch (ck : Clerk) (index : Nat)
deriving DecidableEq, Repr

/-- The head of all eight loop bodies:
`ck.leader %= cnt; if atomic.LoadInt32(&((*ck.serversIsOk)[ck.leader])) == 0 { ck.leader++; continue }`
followed by the indexing `ck.servers[ck.leader]` of the goroutine. -/
def selectServer (serversIsOk : List Int) (ck : Clerk) : Selected :=
  let cnt : Int := ck.servers.length
  if cnt = 0 then .crash
  else
    let ck : Clerk := { ck with leader := Int.tmod ck.leader cnt }
    if ck.leader < 0 then .crash
    else
      match serversIsOk[ck.leader.toNat]? with
      | none => .crash
      | some flag =>
        if flag = 0 then .skip { ck with leader := ck.leader + 1 }
        else
          match ck.servers[ck.leader.toNat]? with
          | none => .crash
          | some _ => .dispatch ck ck.leader.toNat

/-- How far an operation got over the passes it was given. -/
inductive Status where
  | running
  | returned (v : Ret)
  | fatal
  | crash
deriving DecidableEq, Repr

/-- A run of an operation: how it ended, the Clerk at that point, and for each
pass that went through the head of the loop what it sent (`none` for a skip). -/
structure Run where
  status : Status
  ck : Clerk
  log : List (Option Dispatch)
deriving DecidableEq, Repr

/-- The loop `for { ... }` around a body, one `Env` per pass. -/
def forLoop (body : Env → Clerk → Step) : List Env → Clerk → Run
  | [], ck => ⟨.running, ck, []⟩
  | e :: es, ck =>
    match body e ck with
    | .next ck1 sent =>
      let r := forLoop body es ck1
      ⟨r.status, r.ck, sent :: r.log⟩
    | .ret ck1 v sent => ⟨.returned v, ck1, [some sent]⟩
    | .fatal ck1 sent => ⟨.fatal, ck1, [some sent]⟩
    | .crash => ⟨.crash, ck, []⟩

/-! ## `src/BaseServer/kvclient.go` -/

namespace BaseServer

/-- Body of the loop of `Clerk.Get`.  A call error is logged with `log.Printf`
and `false` is sent on `replyArrival`. -/
def getBody (key : String) (e : Env) (ck : Clerk) : Step :=
  let args : GetArgs := { Key := key, ClientID := ck.ClientID, SeqNo := ck.seq }
  match selectServer e.serversIsOk ck with
  | .crash => .crash
  | .skip ck => .next ck none
  | .dispatch ck i =>
    let sent : Dispatch := ⟨i, .Get args⟩
    match e.call i (.Get args) with
    | .replyArrival err reply =>
      let ok : Bool := !err
      if ok then
        if reply.Err = OK ∨ reply.Err = ErrNoKey ∨ reply.Err = Duplicate then
          .ret { ck with seq := ck.seq + 1 } (.Get reply.Value) sent
        else if reply.Err = ReElection ∨ reply.Err = NoLeader then
          .next { ck with leader := ck.leader + 1 } (some sent)
        else .next ck (some sent)
      else .next { ck with leader := ck.leader + 1 } (some sent)
    | .timeout => .next { ck with leader := ck.leader + 1 } (some sent)

/-- Body of the loop of `Clerk.PutAppend`.  A call error is logged with
`log.Printf` and `false` is sent on `replyArrival`. -/
def putAppendBody (key value op : String) (e : Env) (ck : Clerk) : Step :=
  let args : PutAppendArgs :=
    { Key := key, Value := value, Op := op, ClientID := ck.ClientID, SeqNo := ck.seq }
  match selectServer e.serversIsOk ck with
  | .crash => .crash
  | .skip ck => .next ck none
  | .dispatch ck i =>
    let sent : Dispatch := ⟨i, .PutAppend args⟩
    match e.call i (.PutAppend args) with
    | .timeout => .next { ck with leader := ck.leader + 1 } (some sent)
    | .replyArrival err reply =>
      let ok : Bool := !err
      if ok = true ∧ (reply.Err = OK ∨ reply.Err = Duplicate) then
        .ret { ck with seq := ck.seq + 1 } .PutAppend sent
      else .next { ck with leader := ck.leader + 1 } (some sent)

/-! ## `src/BaseServer/lockclient.go`

In the four lock operations the goroutine calls `log.Fatal` on a call error:
the process exits there, `flag = false` is never reached and nothing is sent on
`replyArrival`. -/

/-- Body of the loop of `Clerk.Open`. -/
def openBody (pathname : String) (e : Env) (ck : Clerk) : Step :=
  let args : OpenArgs := { PathName := pathname, ClientID := ck.ClientID, SeqNo := ck.seq }
  match selectServer e.serversIsOk ck with
  | .crash => .crash
  | .skip ck => .next ck none
  | .dispatch ck i =>
    let sent : Dispatch := ⟨i, .Open args⟩
    match e.call i (.Open args) with
    | .timeout => .next { ck with leader := ck.leader + 1 } (some sent)
    | .replyArrival err reply =>
      if err then .fatal ck sent
      else
        let ok : Bool := true
        if ok = true ∧ reply.Err = OK then
          .ret { ck with seq := ck.seq + 1 } (.Open true (some ⟨reply.InstanceSeq, pathname⟩)) sent
        else if reply.Err = OpenError ∨ reply.Err = Duplicate then
          .ret { ck with seq := ck.seq + 1 } (.Open false none) sent
        else .next { ck with leader := ck.leader + 1 } (some sent)

/-- Body of the loop of `Clerk.Create`; `fd` is the descriptor behind the
(non-nil) pointer. -/
def createBody (fd : FileDescriptor) (fileType : Int) (filename : String) (e : Env) (ck : Clerk) :
    Step :=
  let args : CreateArgs :=
    { PathName := fd.PathName, ClientID := ck.ClientID, SeqNo := ck.seq,
      InstanceSeq := fd.InstanceSeq, FileType := fileType, FileName := filename }
  match selectServer e.serversIsOk ck with
  | .crash => .crash
  | .skip ck => .next ck none
  | .dispatch ck i =>
    let sent : Dispatch := ⟨i, .Create args⟩
    match e.call i (.Create args) with
    | .timeout => .next { ck with leader := ck.leader + 1 } (some sent)
    | .replyArrival err reply =>
      if err then .fatal ck sent
      else
        let ok : Bool := true
        if ok = true ∧ reply.Err = OK then
          .ret { ck with seq := ck.seq + 1 }
            (.Create true (some ⟨reply.InstanceSeq, fd.PathName ++ "/" ++ filename⟩)) sent
        else if reply.Err = CreateError ∨ reply.Err = Duplicate then
          .ret { ck with seq := ck.seq + 1 } (.Create false none) sent
        else .next { ck with leader := ck.leader + 1 } (some sent)

/-- Body of the loop of `Clerk.Delete`; `fd` is the descriptor behind the
(non-nil) pointer. -/
def deleteBody (fd : FileDescriptor) (filename : String) (opType : Int) (e : Env) (ck : Clerk) :
    Step :=
  let args : CloseArgs :=
    { PathName := fd.PathName, ClientID := ck.ClientID, SeqNo := ck.seq,
      InstanceSeq := fd.InstanceSeq, FileName := filename, opType := opType }
  match selectServer e.serversIsOk ck with
  | .crash => .crash
  | .skip ck => .next ck none
  | .dispatch ck i =>
    let sent : Dispatch := ⟨i, .Delete args⟩
    match e.call i (.Delete args) with
    | .timeout => .next { ck with leader := ck.leader + 1 } (some sent)
    | .replyArrival err reply =>
      if err then .fatal ck sent
      else
        let ok : Bool := true
        if ok = true ∧ reply.Err = OK then
          .ret { ck with seq := ck.seq + 1 } (.Delete true) sent
        else if reply.Err = CreateError ∨ reply.Err = Duplicate then
          .ret { ck with seq := ck.seq + 1 } (.Delete false) sent
        else .next { ck with leader := ck.leader + 1 } (some sent)

/-- Body of the loop of `Clerk.Acquire`. -/
def acquireBody (pathname filename : String) (instanceseq : Nat) (LockType : Int) (e : Env)
    (ck : Clerk) : Step :=
  let args : AcquireArgs :=
    { PathName := pathname, ClientID := ck.ClientID, SeqNo := ck.seq,
      InstanceSeq := instanceseq, FileName := filename, LockType := LockType }
  match selectServer e.serversIsOk ck with
  | .crash => .crash
  | .skip ck => .next ck none
  | .dispatch ck i =>
    let sent : Dispatch := ⟨i, .Acquire args⟩
    match e.call i (.Acquire args) with
    | .timeout => .next { ck with leader := ck.leader + 1 } (some sent)
    | .replyArrival err reply =>
      if err then .fatal ck sent
      else
        let ok : Bool := true
        if ok = true ∧ reply.Err = OK then
          .ret { ck with seq := ck.seq + 1 } (.Acquire true reply.InstanceSeq) sent
        else if reply.Err = AcquireError ∨ reply.Err = Duplicate then
          .ret { ck with seq := ck.seq + 1 } (.Acquire false 0) sent
        else .next { ck with leader := ck.leader + 1 } (some sent)

end BaseServer

/-! ## `src/KvServer/kvclient.go`

Both goroutines call `log.Fatal` on a call error. -/

namespace KvServer

/-- Body of the loop of `Clerk.Get`. -/
def getBody (key : String) (e : Env) (ck : Clerk) : Step :=
  let args : GetArgs := { Key := key, ClientID := ck.ClientID, SeqNo := ck.seq }
  match selectServer e.serversIsOk ck with
  | .crash => .crash
  | .skip ck => .next ck none
  | .dispatch ck i =>
    let sent : Dispatch := ⟨i, .Get args⟩
    match e.call i (.Get args) with
    | .replyArrival err reply =>
      if err then .fatal ck sent
      else
        let ok : Bool := true
        if ok then
          if reply.Err = OK ∨ reply.Err = ErrNoKey ∨ reply.Err = Duplicate then
            .ret { ck with seq := ck.seq + 1 } (.Get reply.Value) sent
          else if reply.Err = ReElection ∨ reply.Err = NoLeader then
            .next { ck with leader := ck.leader + 1 } (some sent)
          else .next ck (some sent)
        else .next { ck with leader := ck.leader + 1 } (some sent)
    | .timeout => .next { ck with leader := ck.leader + 1 } (some sent)

/-- Body of the loop of `Clerk.PutAppend`. -/
def putAppendBody (key value op : String) (e : Env) (ck : Clerk) : Step :=
  let args : PutAppendArgs :=
    { Key := key, Value := value, Op := op, ClientID := ck.ClientID, SeqNo := ck.seq }
  match selectServer e.serversIsOk ck with
  | .crash => .crash
  | .skip ck => .next ck none
  | .dispatch ck i =>
    let sent : Dispatch := ⟨i, .PutAppend args⟩
    match e.call i (.PutAppend args) with
    | .timeout => .next { ck with leader := ck.leader + 1 } (some sent)
    | .replyArrival err reply =>
      if err then .fatal ck sent
      else
        let ok : Bool := true
        if ok = true ∧ (reply.Err = OK ∨ reply.Err = Duplicate) then
          .ret { ck with seq := ck.seq + 1 } .PutAppend sent
        else .next { ck with leader := ck.leader + 1 } (some sent)

end KvServer

/-! ## The eight operations -/

/-- An invocation of one of the operations with its arguments: the six of
package `BaseServer`, and `Get` and `PutAppend` of package `KvServer`. -/
inductive Op where
  | Get (key : String)
  | PutAppend (key value op : String)
  | Open (pathname : String)
  | Create (fd : FileDescriptor) (fileType : Int) (filename : String)
  | Delete (fd : FileDescriptor) (filename : String) (opType : Int)
  | Acquire (pathname filename : String) (instanceseq : Nat) (LockType : Int)
  | KvGet (key : String)
  | KvPutAppend (key value op : String)
deriving DecidableEq, Repr

/-- The loop body of an invocation. -/
def Op.body : Op → Env → Clerk → Step
  | .Get key => BaseServer.getBody key
  | .PutAppend key value op => BaseServer.putAppendBody key value op
  | .Open pathname => BaseServer.openBody pathname
  | .Create fd t filename => BaseServer.createBody fd t filename
  | .Delete fd filename opType => BaseServer.deleteBody fd filename opType
  | .Acquire pathname filename instanceseq lockType =>
    BaseServer.acquireBody pathname filename instanceseq lockType
  | .KvGet key => KvServer.getBody key
  | .KvPutAppend key value op => KvServer.putAppendBody key value op

/-- The invocation run over the given passes. -/
def Op.run (op : Op) (envs : List Env) (ck : Clerk) : Run :=
  forLoop op.body envs ck

/-- The request an invocation builds from the Clerk at the top of a pass. -/
def Op.request : Op → Clerk → Request
  | .Get key, ck => .Get { Key := key, ClientID := ck.ClientID, SeqNo := ck.seq }
  | .PutAppend key value op, ck =>
    .PutAppend { Key := key, Value := value, Op := op, ClientID := ck.ClientID, SeqNo := ck.seq }
  | .Open pathname, ck => .Open { PathName := pathname, ClientID := ck.ClientID, SeqNo := ck.seq }
  | .Create fd t filename, ck =>
    .Create { PathName := fd.PathName, ClientID := ck.ClientID, SeqNo := ck.seq,
              InstanceSeq := fd.InstanceSeq, FileType := t, FileName := filename }
  | .Delete fd filename opType, ck =>
    .Delete { PathName := fd.PathName, ClientID := ck.ClientID, SeqNo := ck.seq,
              InstanceSeq := fd.InstanceSeq, FileName := filename, opType := opType }
  | .Acquire pathname filename instanceseq lockType, ck =>
    .Acquire { PathName := pathname, ClientID := ck.ClientID, SeqNo := ck.seq,
               InstanceSeq := instanceseq, FileName := filename, LockType := lockType }
  | .KvGet key, ck => .Get { Key := key, ClientID := ck.ClientID, SeqNo := ck.seq }
  | .KvPutAppend key value op, ck =>
    .PutAppend { Key := key, Value := value, Op := op, ClientID := ck.ClientID, SeqNo := ck.seq }

/-- Terminal-success statuses of an operation: the table of section 4.2 of the spec. -/
def Op.successStatuses : Op → List Err
  | .Get _ | .KvGet _ => [OK, ErrNoKey, Duplicate]
  | .PutAppend _ _ _ | .KvPutAppend _ _ _ => [OK, Duplicate]
  | _ => [OK]

/-- Terminal-failure statuses of an operation: the table of section 4.2 of the spec. -/
def Op.failureStatuses : Op → List Err
  | .Open _ => [OpenError, Duplicate]
  | .Create _ _ _ => [CreateError, Duplicate]
  | .Delete _ _ _ => [CreateError, Duplicate]
  | .Acquire _ _ _ _ => [AcquireError, Duplicate]
  | _ => []

/-- What the operation hands back on a terminal success with reply `r`. -/
def Op.successValue : Op → Reply → Ret
  | .Get _, r | .KvGet _, r => .Get r.Value
  | .PutAppend _ _ _, _ | .KvPutAppend _ _ _, _ => .PutAppend
  | .Open pathname, r => .Open true (some ⟨r.InstanceSeq, pathname⟩)
  | .Create fd _ filename, r => .Create true (some ⟨r.InstanceSeq, fd.PathName ++ "/" ++ filename⟩)
  | .Delete _ _ _, _ => .Delete true
  | .Acquire _ _ _ _, r => .Acquire true r.InstanceSeq

/-- What the operation hands back on a terminal failure: `(false, nil)`, `false`,
`(false, 0)`; `Get` and `PutAppend` have no terminal failure (the value given here is never
used for them, their set of failure statuses being empty). -/
def Op.failureValue : Op → Ret
  | .Open _ => .Open false none
  | .Create _ _ _ => .Create false none
  | .Delete _ _ _ => .Delete false
  | .Acquire _ _ _ _ => .Acquire false 0
  | .Get _ | .KvGet _ => .Get ""
  | _ => .PutAppend

/-- The two `Get`s. -/
def Op.isGet : Op → Bool
  | .Get _ | .KvGet _ => true
  | _ => false

/-- The operations whose goroutine logs a call error with `log.Printf` and goes on
(`Get` and `PutAppend` of `BaseServer`); the six others call `log.Fatal`. -/
def Op.logsCallError : Op → Bool
  | .Get _ | .PutAppend _ _ _ => true
  | _ => false

/-- The four lock-service operations of `lockclient.go`. -/
def Op.isLock : Op → Bool
  | .Open _ | .Create _ _ _ | .Delete _ _ _ | .Acquire _ _ _ _ => true
  | _ => false

/-- What each operation reports to its caller for a `Duplicate` reply, in the words of
section 4.2 of the spec: failure for the lock operations, the replayed result for `Get`
and `PutAppend`. -/
def Op.onDuplicate : Op → Reply → Ret
  | .Open _, _ => .Open false none
  | .Create _ _ _, _ => .Create false none
  | .Delete _ _ _, _ => .Delete false
  | .Acquire _ _ _ _, _ => .Acquire false 0
  | .Get _, r | .KvGet _, r => .Get r.Value
  | .PutAppend _ _ _, _ | .KvPutAppend _ _ _, _ => .PutAppend

/-- Whether a returned value reports success: the boolean of the lock operations; `Get`
and `PutAppend` have no failure return. -/
def Ret.ok : Ret → Bool
  | .Get _ => true
  | .PutAppend => true
  | .Open ok _ => ok
  | .Create ok _ => ok
  | .Delete ok => ok
  | .Acquire ok _ => ok

/-- The pass of `op` in the world `e` from the Clerk `ck` is an attempt: it gets through
the head of the loop (leaving the Clerk `c`, the hint reduced), sends the request to
server `i`, and the race ends with `out`. -/
def Op.Attempt (op : Op) (e : Env) (ck c : Clerk) (i : Nat) (out : Outcome) : Prop :=
  selectServer e.serversIsOk ck = .dispatch c i ∧ e.call i (op.request ck) = out

instance (op : Op) (e : Env) (ck c : Clerk) (i : Nat) (out : Outcome) :
    Decidable (op.Attempt e ck c i out) :=
  inferInstanceAs
    (Decidable (selectServer e.serversIsOk ck = .dispatch c i ∧ e.call i (op.request ck) = out))

/-- Pass number `k` (from 0) of the run of `op` over `envs` from `ck` is an attempt: the
operation is still in its loop after the `k` passes before it, this pass sends the request
to server `i`, and its race ends with `out`. -/
def Op.AttemptAt (op : Op) (envs : List Env) (ck : Clerk) (k i : Nat) (out : Outcome) : Prop :=
  ∃ e c, envs[k]? = some e ∧ (op.run (envs.take k) ck).status = .running ∧
    op.Attempt e (op.run (envs.take k) ck).ck c i out

/-- The run that goes round the loop once more: the rest of the run, after a pass that
sent `sent` and left the loop going. -/
def Run.after (sent : Option Dispatch) (r : Run) : Run :=
  ⟨r.status, r.ck, sent :: r.log⟩

/-- The world of the leader-convergence scenario over `n` servers with leader `L`: every
server is flagged reachable, every call to `L` succeeds with an `OK` reply, and every call
to another server succeeds with a `NoLeader` reply. -/
def Converging (n L : Nat) (e : Env) : Prop :=
  (∀ i, i < n → ∃ f, e.serversIsOk[i]? = some f ∧ f ≠ 0) ∧
    (∀ req, ∃ r, e.call L req = .replyArrival false r ∧ r.Err = OK) ∧
    (∀ i req, i < n → i ≠ L → ∃ r, e.call i req = .replyArrival false r ∧ r.Err = NoLeader)

/-- The number of increments that take the index `j` to `L`, going up and wrapping
from `n - 1` to 0. -/
def hops (n L j : Nat) : Nat :=
  if j ≤ L then L - j else L + n - j

/-! ## `MakeClerk` -/

/-- The call `mrand.Intn(n)` of the Go library: it panics for `n <= 0` and otherwise
hands back a value of `[0, n)`.  `draw` is what the random source yields; reducing it
modulo `n` reaches every value of the range and no other. -/
def Intn (draw : Nat) (n : Int) : Option Int :=
  if n ≤ 0 then none else some (draw % n)

namespace BaseServer

/-- The constructor `MakeClerk(servers, IsOk)`.  `draw` is the value the random source
yields to `mrand.Intn`, `sonyflake` the value `Flake.GetSonyflake()` hands back (package
`Flake` is outside the shown sources); `none` is the panic of `Intn`. -/
def MakeClerk (servers : List Nat) (IsOk : Nat) (draw : Nat) (sonyflake : Nat) : Option Clerk :=
  match Intn draw servers.length with
  | none => none
  | some leader =>
    some { servers := servers, serversIsOk := IsOk, leader := leader, seq := 1,
           ClientID := sonyflake }

end BaseServer

namespace KvServer

/-- The constructor `MakeClerk(servers, IsOk)` of package `KvServer`, with
`Flake.GenSonyflake()` as the identity source. -/
def MakeClerk (servers : List Nat) (IsOk : Nat) (draw : Nat) (sonyflake : Nat) : Option Clerk :=
  match Intn draw servers.length with
  | none => none
  | some leader =>
    some { servers := servers, serversIsOk := IsOk, leader := leader, seq := 1,
           ClientID := sonyflake }

end KvServer

/-! ## Requests and sessions -/

/-- The field `ClientID` of the arguments of a request. -/
def Request.ClientID : Request → Nat
  | .Get a => a.ClientID
  | .PutAppend a => a.ClientID
  | .Open a => a.ClientID
  | .Create a => a.ClientID
  | .Delete a => a.ClientID
  | .Acquire a => a.ClientID

/-- The field `SeqNo` of the arguments of a request. -/
def Request.SeqNo : Request → Int
  | .Get a => a.SeqNo
  | .PutAppend a => a.SeqNo
  | .Open a => a.SeqNo
  | .Create a => a.SeqNo
  | .Delete a => a.SeqNo
  | .Acquire a => a.SeqNo

/-- The requests of a run, in the order in which they were sent. -/
def Run.sent (r : Run) : List Dispatch :=
  r.log.filterMap id

/-- A caller that invokes operations one after the other on the same Clerk, each with
the passes the world grants it: the runs, in order, every operation starting from the
Clerk the one before it left at its return; the caller gets no further than an
operation that does not return. -/
def session : List (Op × List Env) → Clerk → List Run
  | [], _ => []
  | (op, envs) :: rest, ck =>
    let r := op.run envs ck
    r :: (match r.status with
      | .returned _ => session rest r.ck
      | _ => [])

/-! ## Concrete worlds used to exercise the statements -/

/-- A Clerk as `MakeClerk` leaves it over three servers, the hint drawn being 0. -/
def demoClerk : Clerk := ⟨[10, 11, 12], 0, 1, 77, 0⟩

/-- Server 1 is flagged down; server 2 answers `OK` with value `"v"` and instance 5,
servers 0 and 1 answer `NoLeader`. -/
def demoEnv : Env :=
  ⟨[1, 0, 1], fun i _ =>
    if i = 2 then .replyArrival false ⟨OK, "v", 5⟩ else .replyArrival false ⟨NoLeader, "", 0⟩⟩

/-- All three servers flagged up; server 2 answers `OK` with value `"v"` and instance 5,
servers 0 and 1 answer `NoLeader`. -/
def allUpEnv : Env :=
  ⟨[1, 1, 1], fun i _ =>
    if i = 2 then .replyArrival false ⟨OK, "v", 5⟩ else .replyArrival false ⟨NoLeader, "", 0⟩⟩

/-! ## The head of the loop -/

theorem selectServer_skip {flags : List Int} {ck c : Clerk}
    (h : selectServer flags ck = .skip c) :
    c = { ck with leader := Int.tmod ck.leader ck.servers.length + 1 } := by
  unfold selectServer at h
  simp only at h
  split at h
  · simp at h
  · split at h
    · simp at h
    · split at h
      · simp at h
      · split at h
        · simpa using h.symm
        · split at h <;> simp at h

theorem selectServer_dispatch {flags : List Int} {ck c : Clerk} {i : Nat}
    (h : selectServer flags ck = .dispatch c i) :
    c = { ck with leader := Int.tmod ck.leader ck.servers.length } ∧
    c.leader = i ∧ i < ck.servers.length ∧ ∃ f, flags[i]? = some f ∧ f ≠ 0 := by
  unfold selectServer at h
  simp only at h
  by_cases hcnt : (ck.servers.length : Int) = 0
  · rw [if_pos hcnt] at h; simp at h
  · rw [if_neg hcnt] at h
    by_cases hneg : Int.tmod ck.leader ck.servers.length < 0
    · rw [if_pos hneg] at h; simp at h
    · rw [if_neg hneg] at h
      cases hf : flags[(Int.tmod ck.leader ck.servers.length).toNat]? with
      | none => rw [hf] at h; simp at h
      | some f =>
        rw [hf] at h
        simp only at h
        by_cases hf0 : f = 0
        · rw [if_pos hf0] at h; simp at h
        · rw [if_neg hf0] at h
          cases hs : ck.servers[(Int.tmod ck.leader ck.servers.length).toNat]? with
          | none => rw [hs] at h; simp at h
          | some s =>
            rw [hs] at h
            simp only [Selected.dispatch.injEq] at h
            obtain ⟨h1, h2⟩ := h
            subst h1
            refine ⟨rfl, ?_, ?_, f, ?_, hf0⟩
            · rw [← h2]; exact (Int.toNat_of_nonneg (not_lt.mp hneg)).symm
            · rw [← h2]; exact (List.getElem?_eq_some_iff.mp hs).1
            · rw [← h2]; exact hf

theorem selectServer_reachable (flags : List Int) (ck : Clerk) {f : Int}
    (hn : 0 < ck.servers.length) (h0 : 0 ≤ ck.leader)
    (hf : flags[(Int.tmod ck.leader ck.servers.length).toNat]? = some f) (hf0 : f ≠ 0) :
    selectServer flags ck =
      .dispatch { ck with leader := Int.tmod ck.leader ck.servers.length }
        (Int.tmod ck.leader ck.servers.length).toNat := by
  have h1 : ¬ ((ck.servers.length : Int) = 0) := by omega
  have h2 : ¬ (Int.tmod ck.leader ck.servers.length < 0) :=
    not_lt.mpr (Int.tmod_nonneg _ h0)
  have h3 : (Int.tmod ck.leader ck.servers.length).toNat < ck.servers.length := by
    have := Int.tmod_lt_of_pos ck.leader (b := (ck.servers.length : Int)) (by omega)
    omega
  unfold selectServer
  simp only
  rw [if_neg h1, if_neg h2, hf]
  simp only
  rw [if_neg hf0, List.getElem?_eq_getElem h3]

theorem tmod_toNat_lt (ck : Clerk) (hn : 0 < ck.servers.length) :
    (Int.tmod ck.leader ck.servers.length).toNat < ck.servers.length := by
  have := Int.tmod_lt_of_pos ck.leader (b := (ck.servers.length : Int)) (by omega)
  omega

/-! ## One pass through a loop body -/

theorem body_crash (op : Op) {e : Env} {ck : Clerk}
    (h : selectServer e.serversIsOk ck = .crash) : op.body e ck = .crash := by
  cases op <;> simp [Op.body, BaseServer.getBody, BaseServer.putAppendBody, BaseServer.openBody,
    BaseServer.createBody, BaseServer.deleteBody, BaseServer.acquireBody, KvServer.getBody,
    KvServer.putAppendBody, h]

theorem body_skip (op : Op) {e : Env} {ck c : Clerk}
    (h : selectServer e.serversIsOk ck = .skip c) : op.body e ck = .next c none := by
  cases op <;> simp [Op.body, BaseServer.getBody, BaseServer.putAppendBody, BaseServer.openBody,
    BaseServer.createBody, BaseServer.deleteBody, BaseServer.acquireBody, KvServer.getBody,
    KvServer.putAppendBody, h]

theorem body_timeout (op : Op) {e : Env} {ck c : Clerk} {i : Nat}
    (h : selectServer e.serversIsOk ck = .dispatch c i)
    (ho : e.call i (op.request ck) = .timeout) :
    op.body e ck = .next { c with leader := c.leader + 1 } (some ⟨i, op.request ck⟩) := by
  cases op <;> simp only [Op.request] at ho <;>
    simp [Op.body, BaseServer.getBody, BaseServer.putAppendBody, BaseServer.openBody,
    BaseServer.createBody, BaseServer.deleteBody, BaseServer.acquireBody, KvServer.getBody,
    KvServer.putAppendBody, h, ho, Op.request]

theorem body_callError (op : Op) {e : Env} {ck c : Clerk} {i : Nat} {r : Reply}
    (h : selectServer e.serversIsOk ck = .dispatch c i)
    (ho : e.call i (op.request ck) = .replyArrival true r) :
    op.body e ck =
      if op.logsCallError then .next { c with leader := c.leader + 1 } (some ⟨i, op.request ck⟩)
      else .fatal c ⟨i, op.request ck⟩ := by
  cases op <;> simp only [Op.request] at ho <;>
    simp [Op.body, BaseServer.getBody, BaseServer.putAppendBody, BaseServer.openBody,
    BaseServer.createBody, BaseServer.deleteBody, BaseServer.acquireBody, KvServer.getBody,
    KvServer.putAppendBody, h, ho, Op.request, Op.logsCallError]

theorem body_reply (op : Op) {e : Env} {ck c : Clerk} {i : Nat} {r : Reply}
    (h : selectServer e.serversIsOk ck = .dispatch c i)
    (ho : e.call i (op.request ck) = .replyArrival false r) :
    op.body e ck =
      if r.Err ∈ op.successStatuses then
        .ret { c with seq := c.seq + 1 } (op.successValue r) ⟨i, op.request ck⟩
      else if r.Err ∈ op.failureStatuses then
        .ret { c with seq := c.seq + 1 } op.failureValue ⟨i, op.request ck⟩
      else if r.Err = ReElection ∨ r.Err = NoLeader then
        .next { c with leader := c.leader + 1 } (some ⟨i, op.request ck⟩)
      else if op.isGet then .next c (some ⟨i, op.request ck⟩)
      else .next { c with leader := c.leader + 1 } (some ⟨i, op.request ck⟩) := by
  cases op <;> simp only [Op.request] at ho <;>
    simp [Op.body, BaseServer.getBody, BaseServer.putAppendBody, BaseServer.openBody,
    BaseServer.createBody, BaseServer.deleteBody, BaseServer.acquireBody, KvServer.getBody,
    KvServer.putAppendBody, h, ho, Op.request, Op.successStatuses, Op.failureStatuses,
    Op.successValue, Op.failureValue, Op.isGet]

theorem body_next_inv (op : Op) {e : Env} {ck c : Clerk} {s : Option Dispatch}
    (h : op.body e ck = .next c s) :
    c.seq = ck.seq ∧ c.ClientID = ck.ClientID ∧ c.servers = ck.servers ∧
      c.serversIsOk = ck.serversIsOk := by
  cases hs : selectServer e.serversIsOk ck with
  | crash => rw [body_crash op hs] at h; cases h
  | skip c0 =>
    rw [body_skip op hs] at h
    injection h with h1 h2
    subst h1
    rw [selectServer_skip hs]
    simp
  | dispatch c0 i =>
    have hc0 := (selectServer_dispatch hs).1
    cases ho : e.call i (op.request ck) with
    | timeout =>
      rw [body_timeout op hs ho] at h
      injection h with h1 h2
      subst h1; subst hc0
      simp
    | replyArrival err r =>
      cases err with
      | true =>
        rw [body_callError op hs ho] at h
        split_ifs at h
        injection h with h1 h2
        subst h1; subst hc0
        simp
      | false =>
        rw [body_reply op hs ho] at h
        split_ifs at h <;> injection h with h1 h2 <;> subst h1 <;> subst hc0 <;> simp

theorem body_ret_inv (op : Op) {e : Env} {ck c : Clerk} {v : Ret} {d : Dispatch}
    (h : op.body e ck = .ret c v d) :
    c.seq = ck.seq + 1 ∧ c.ClientID = ck.ClientID ∧ c.servers = ck.servers ∧
      c.serversIsOk = ck.serversIsOk ∧ c.leader = d.index ∧ d.index < ck.servers.length ∧
      d.request = op.request ck := by
  cases hs : selectServer e.serversIsOk ck with
  | crash => rw [body_crash op hs] at h; cases h
  | skip c0 => rw [body_skip op hs] at h; cases h
  | dispatch c0 i =>
    obtain ⟨hc0, hl, hi, -⟩ := selectServer_dispatch hs
    cases ho : e.call i (op.request ck) with
    | timeout => rw [body_timeout op hs ho] at h; cases h
    | replyArrival err r =>
      cases err with
      | true =>
        rw [body_callError op hs ho] at h
        split_ifs at h
      | false =>
        rw [body_reply op hs ho] at h
        split_ifs at h <;> injection h with h1 h2 h3 <;> subst h1 <;> subst h3 <;>
          refine ⟨?_, ?_, ?_, ?_, hl, hi, rfl⟩ <;> subst hc0 <;> simp

theorem body_sent_reachable (op : Op) {e : Env} {ck : Clerk} {d : Dispatch}
    (h : (∃ c, op.body e ck = .next c (some d)) ∨ (∃ c v, op.body e ck = .ret c v d) ∨
      (∃ c, op.body e ck = .fatal c d)) :
    d.index < ck.servers.length ∧ d.request = op.request ck ∧
      (d.index : Int) = Int.tmod ck.leader ck.servers.length ∧
      ∃ f, e.serversIsOk[d.index]? = some f ∧ f ≠ 0 := by
  cases hs : selectServer e.serversIsOk ck with
  | crash =>
    rw [body_crash op hs] at h
    rcases h with ⟨c, h⟩ | ⟨c, v, h⟩ | ⟨c, h⟩ <;> cases h
  | skip c0 =>
    rw [body_skip op hs] at h
    rcases h with ⟨c, h⟩ | ⟨c, v, h⟩ | ⟨c, h⟩ <;> cases h
  | dispatch c0 i =>
    obtain ⟨hc0, hl, hi, hf⟩ := selectServer_dispatch hs
    subst hc0
    simp only at hl
    have key : d = ⟨i, op.request ck⟩ := by
      cases ho : e.call i (op.request ck) with
      | timeout =>
        rw [body_timeout op hs ho] at h
        rcases h with ⟨c, h⟩ | ⟨c, v, h⟩ | ⟨c, h⟩ <;> cases h
        rfl
      | replyArrival err r =>
        cases err with
        | true =>
          rw [body_callError op hs ho] at h
          split_ifs at h <;> rcases h with ⟨c, h⟩ | ⟨c, v, h⟩ | ⟨c, h⟩ <;> cases h <;> rfl
        | false =>
          rw [body_reply op hs ho] at h
          split_ifs at h <;> rcases h with ⟨c, h⟩ | ⟨c, v, h⟩ | ⟨c, h⟩ <;> cases h <;> rfl
    subst key
    exact ⟨hi, rfl, hl.symm, hf⟩

theorem request_congr (op : Op) (c ck : Clerk) (h1 : c.seq = ck.seq)
    (h2 : c.ClientID = ck.ClientID) : op.request c = op.request ck := by
  cases op <;> simp [Op.request, h1, h2]

/-! ## Attempts -/

theorem attempt_hint {op : Op} {e : Env} {ck c : Clerk} {i : Nat} {out : Outcome}
    (h : op.Attempt e ck c i out) :
    c = { ck with leader := i } ∧ (i : Int) = Int.tmod ck.leader ck.servers.length ∧
      i < ck.servers.length := by
  obtain ⟨h1, h2, h3, -⟩ := selectServer_dispatch h.1
  subst h1
  simp only at h2
  exact ⟨by rw [h2], h2.symm, h3⟩

theorem attempt_timeout {op : Op} {e : Env} {ck c : Clerk} {i : Nat}
    (h : op.Attempt e ck c i .timeout) :
    op.body e ck = .next { ck with leader := i + 1 } (some ⟨i, op.request ck⟩) := by
  obtain ⟨hc, -, -⟩ := attempt_hint h
  rw [body_timeout op h.1 h.2]
  subst hc
  rfl

theorem attempt_callError {op : Op} {e : Env} {ck c : Clerk} {i : Nat} {r : Reply}
    (h : op.Attempt e ck c i (.replyArrival true r)) :
    op.body e ck =
      if op.logsCallError then .next { ck with leader := i + 1 } (some ⟨i, op.request ck⟩)
      else .fatal { ck with leader := i } ⟨i, op.request ck⟩ := by
  obtain ⟨hc, -, -⟩ := attempt_hint h
  rw [body_callError op h.1 h.2]
  subst hc
  rfl

theorem attempt_reply {op : Op} {e : Env} {ck c : Clerk} {i : Nat} {r : Reply}
    (h : op.Attempt e ck c i (.replyArrival false r)) :
    op.body e ck =
      if r.Err ∈ op.successStatuses then
        .ret { ck with leader := i, seq := ck.seq + 1 } (op.successValue r) ⟨i, op.request ck⟩
      else if r.Err ∈ op.failureStatuses then
        .ret { ck with leader := i, seq := ck.seq + 1 } op.failureValue ⟨i, op.request ck⟩
      else if r.Err = ReElection ∨ r.Err = NoLeader then
        .next { ck with leader := i + 1 } (some ⟨i, op.request ck⟩)
      else if op.isGet then .next { ck with leader := i } (some ⟨i, op.request ck⟩)
      else .next { ck with leader := i + 1 } (some ⟨i, op.request ck⟩) := by
  obtain ⟨hc, -, -⟩ := attempt_hint h
  rw [body_reply op h.1 h.2]
  subst hc
  rfl

theorem attempt_success {op : Op} {e : Env} {ck c : Clerk} {i : Nat} {r : Reply}
    (h : op.Attempt e ck c i (.replyArrival false r)) (h1 : r.Err ∈ op.successStatuses) :
    op.body e ck =
      .ret { ck with leader := i, seq := ck.seq + 1 } (op.successValue r) ⟨i, op.request ck⟩ := by
  rw [attempt_reply h, if_pos h1]

theorem attempt_failure {op : Op} {e : Env} {ck c : Clerk} {i : Nat} {r : Reply}
    (h : op.Attempt e ck c i (.replyArrival false r)) (h1 : r.Err ∉ op.successStatuses)
    (h2 : r.Err ∈ op.failureStatuses) :
    op.body e ck =
      .ret { ck with leader := i, seq := ck.seq + 1 } op.failureValue ⟨i, op.request ck⟩ := by
  rw [attempt_reply h, if_neg h1, if_pos h2]

theorem attempt_uncertain {op : Op} {e : Env} {ck c : Clerk} {i : Nat} {r : Reply}
    (h : op.Attempt e ck c i (.replyArrival false r)) (h3 : r.Err = ReElection ∨ r.Err = NoLeader) :
    op.body e ck = .next { ck with leader := i + 1 } (some ⟨i, op.request ck⟩) := by
  have h1 : r.Err ∉ op.successStatuses := by
    cases op <;> rcases h3 with h3 | h3 <;>
      simp [Op.successStatuses, h3, OK, ErrNoKey, Duplicate, ReElection, NoLeader]
  have h2 : r.Err ∉ op.failureStatuses := by
    cases op <;> rcases h3 with h3 | h3 <;>
      simp [Op.failureStatuses, h3, OpenError, CreateError, AcquireError, Duplicate, ReElection,
        NoLeader]
  rw [attempt_reply h, if_neg h1, if_neg h2, if_pos h3]

theorem attempt_other {op : Op} {e : Env} {ck c : Clerk} {i : Nat} {r : Reply}
    (h : op.Attempt e ck c i (.replyArrival false r)) (h1 : r.Err ∉ op.successStatuses)
    (h2 : r.Err ∉ op.failureStatuses) (h3 : ¬ (r.Err = ReElection ∨ r.Err = NoLeader)) :
    op.body e ck =
      .next { ck with leader := if op.isGet then (i : Int) else i + 1 }
        (some ⟨i, op.request ck⟩) := by
  rw [attempt_reply h, if_neg h1, if_neg h2, if_neg h3]
  cases hg : op.isGet <;> simp

theorem successValue_ok (op : Op) (r : Reply) : (op.successValue r).ok = true := by
  cases op <;> rfl

theorem lock_failureValue_ok {op : Op} (hop : op.isLock = true) : op.failureValue.ok = false := by
  cases op <;> first | rfl | simp [Op.isLock] at hop

theorem lock_successStatuses {op : Op} (hop : op.isLock = true) : op.successStatuses = [OK] := by
  cases op <;> first | rfl | simp [Op.isLock] at hop

theorem lock_not_get {op : Op} (hop : op.isLock = true) : op.isGet = false := by
  cases op <;> first | rfl | simp [Op.isLock] at hop

theorem OK_not_failure (op : Op) : OK ∉ op.failureStatuses := by
  cases op <;> simp [Op.failureStatuses, OK, OpenError, CreateError, AcquireError, Duplicate]

theorem OK_mem_success (op : Op) : OK ∈ op.successStatuses := by
  cases op <;> simp [Op.successStatuses]

theorem body_ret_iff (op : Op) (e : Env) (ck : Clerk) (v : Ret) :
    (∃ c1 d, op.body e ck = .ret c1 v d) ↔
      ∃ c i r, op.Attempt e ck c i (.replyArrival false r) ∧
        ((r.Err ∈ op.successStatuses ∧ v = op.successValue r) ∨
          (r.Err ∉ op.successStatuses ∧ r.Err ∈ op.failureStatuses ∧ v = op.failureValue)) := by
  constructor
  · rintro ⟨c1, d, h⟩
    cases hs : selectServer e.serversIsOk ck with
    | crash => rw [body_crash op hs] at h; cases h
    | skip c0 => rw [body_skip op hs] at h; cases h
    | dispatch c0 i =>
      cases ho : e.call i (op.request ck) with
      | timeout => rw [body_timeout op hs ho] at h; cases h
      | replyArrival err r =>
        cases err with
        | true =>
          rw [body_callError op hs ho] at h
          split_ifs at h
        | false =>
          have ha : op.Attempt e ck c0 i (.replyArrival false r) := ⟨hs, ho⟩
          refine ⟨c0, i, r, ha, ?_⟩
          by_cases h1 : r.Err ∈ op.successStatuses
          · rw [attempt_success ha h1] at h
            injection h with _ hv _
            exact Or.inl ⟨h1, hv.symm⟩
          · by_cases h2 : r.Err ∈ op.failureStatuses
            · rw [attempt_failure ha h1 h2] at h
              injection h with _ hv _
              exact Or.inr ⟨h1, h2, hv.symm⟩
            · rw [attempt_reply ha, if_neg h1, if_neg h2] at h
              split_ifs at h
  · rintro ⟨c, i, r, ha, ⟨h1, rfl⟩ | ⟨h1, h2, rfl⟩⟩
    · exact ⟨_, _, attempt_success ha h1⟩
    · exact ⟨_, _, attempt_failure ha h1 h2⟩

/-! ## Runs -/

theorem run_nil (op : Op) (ck : Clerk) : op.run [] ck = ⟨.running, ck, []⟩ := rfl

theorem run_cons_next (op : Op) {e : Env} (es : List Env) {ck c : Clerk} {s : Option Dispatch}
    (h : op.body e ck = .next c s) :
    op.run (e :: es) ck = ⟨(op.run es c).status, (op.run es c).ck, s :: (op.run es c).log⟩ := by
  simp [Op.run, forLoop, h]

theorem run_cons_ret (op : Op) {e : Env} (es : List Env) {ck c : Clerk} {v : Ret} {d : Dispatch}
    (h : op.body e ck = .ret c v d) :
    op.run (e :: es) ck = ⟨.returned v, c, [some d]⟩ := by
  simp [Op.run, forLoop, h]

theorem run_cons_fatal (op : Op) {e : Env} (es : List Env) {ck c : Clerk} {d : Dispatch}
    (h : op.body e ck = .fatal c d) :
    op.run (e :: es) ck = ⟨.fatal, c, [some d]⟩ := by
  simp [Op.run, forLoop, h]

theorem run_cons_crash (op : Op) {e : Env} (es : List Env) {ck : Clerk}
    (h : op.body e ck = .crash) :
    op.run (e :: es) ck = ⟨.crash, ck, []⟩ := by
  simp [Op.run, forLoop, h]

theorem run_cons_next_after (op : Op) {e : Env} (es : List Env) {ck c : Clerk}
    {s : Option Dispatch} (h : op.body e ck = .next c s) :
    op.run (e :: es) ck = (op.run es c).after s :=
  run_cons_next op es h

theorem run_running_seq (op : Op) (envs : List Env) (ck : Clerk)
    (h : (op.run envs ck).status = .running) :
    (op.run envs ck).ck.seq = ck.seq ∧ (op.run envs ck).ck.ClientID = ck.ClientID := by
  induction envs generalizing ck with
  | nil => simp [run_nil]
  | cons e es ih =>
    cases hb : op.body e ck with
    | next c s =>
      rw [run_cons_next op es hb] at h ⊢
      simp only at h ⊢
      have := ih c h
      have hi := body_next_inv op hb
      rw [this.1, this.2, hi.1, hi.2.1]
      exact ⟨rfl, rfl⟩
    | ret c v d => rw [run_cons_ret op es hb] at h; simp at h
    | fatal c d => rw [run_cons_fatal op es hb] at h; simp at h
    | crash => rw [run_cons_crash op es hb] at h; simp at h

theorem run_running_servers (op : Op) (envs : List Env) (ck : Clerk)
    (h : (op.run envs ck).status = .running) :
    (op.run envs ck).ck.servers = ck.servers := by
  induction envs generalizing ck with
  | nil => simp [run_nil]
  | cons e es ih =>
    cases hb : op.body e ck with
    | next c s =>
      rw [run_cons_next op es hb] at h ⊢
      simp only at h ⊢
      rw [ih c h, (body_next_inv op hb).2.2.1]
    | ret c v d => rw [run_cons_ret op es hb] at h; simp at h
    | fatal c d => rw [run_cons_fatal op es hb] at h; simp at h
    | crash => rw [run_cons_crash op es hb] at h; simp at h

theorem run_returned_seq (op : Op) (envs : List Env) (ck : Clerk) (v : Ret)
    (h : (op.run envs ck).status = .returned v) :
    (op.run envs ck).ck.seq = ck.seq + 1 := by
  induction envs generalizing ck with
  | nil => simp [run_nil] at h
  | cons e es ih =>
    cases hb : op.body e ck with
    | next c s =>
      rw [run_cons_next op es hb] at h ⊢
      simp only at h ⊢
      rw [ih c h, (body_next_inv op hb).1]
    | ret c v d =>
      rw [run_cons_ret op es hb]
      exact (body_ret_inv op hb).1
    | fatal c d => rw [run_cons_fatal op es hb] at h; simp at h
    | crash => rw [run_cons_crash op es hb] at h; simp at h

theorem run_returned_iff (op : Op) (envs : List Env) (ck : Clerk) (v : Ret) :
    (op.run envs ck).status = .returned v ↔
      ∃ k e, envs[k]? = some e ∧ (op.run (envs.take k) ck).status = .running ∧
        ∃ c1 d, op.body e (op.run (envs.take k) ck).ck = .ret c1 v d := by
  induction envs generalizing ck with
  | nil => simp [run_nil]
  | cons e es ih =>
    cases hb : op.body e ck with
    | next c s =>
      rw [run_cons_next op es hb]
      simp only
      rw [ih c]
      constructor
      · rintro ⟨k, e1, hk, hr, hret⟩
        refine ⟨k + 1, e1, by simpa using hk, ?_, ?_⟩
        · rw [List.take_succ_cons, run_cons_next op _ hb]; exact hr
        · rw [List.take_succ_cons, run_cons_next op _ hb]; exact hret
      · rintro ⟨k, e1, hk, hr, hret⟩
        cases k with
        | zero =>
          simp only [List.getElem?_cons_zero, Option.some.injEq] at hk
          subst hk
          simp only [List.take_zero, run_nil] at hret
          rw [hb] at hret
          obtain ⟨c1, d, hret⟩ := hret
          cases hret
        | succ k =>
          rw [List.take_succ_cons, run_cons_next op _ hb] at hr hret
          exact ⟨k, e1, by simpa using hk, hr, hret⟩
    | ret c v1 d =>
      rw [run_cons_ret op es hb]
      simp only [Status.returned.injEq]
      constructor
      · rintro rfl
        exact ⟨0, e, by simp, rfl, c, d, hb⟩
      · rintro ⟨k, e1, hk, hr, hret⟩
        cases k with
        | zero =>
          simp only [List.getElem?_cons_zero, Option.some.injEq] at hk
          subst hk
          simp only [List.take_zero, run_nil] at hret
          rw [hb] at hret
          obtain ⟨c1, d1, hret⟩ := hret
          injection hret with _ hv _
        | succ k =>
          rw [List.take_succ_cons, run_cons_ret op _ hb] at hr
          cases hr
    | fatal c d =>
      rw [run_cons_fatal op es hb]
      simp only [false_iff, not_exists, not_and, reduceCtorEq]
      intro k e1 hk hr
      cases k with
      | zero =>
        simp only [List.getElem?_cons_zero, Option.some.injEq] at hk
        subst hk
        simp only [List.take_zero, run_nil]
        rw [hb]
        intro c1 d1 hret
        cases hret
      | succ k =>
        rw [List.take_succ_cons, run_cons_fatal op _ hb] at hr
        cases hr
    | crash =>
      rw [run_cons_crash op es hb]
      simp only [false_iff, not_exists, not_and, reduceCtorEq]
      intro k e1 hk hr
      cases k with
      | zero =>
        simp only [List.getElem?_cons_zero, Option.some.injEq] at hk
        subst hk
        simp only [List.take_zero, run_nil]
        rw [hb]
        intro c1 d1 hret
        cases hret
      | succ k =>
        rw [List.take_succ_cons, run_cons_crash op _ hb] at hr
        cases hr

theorem returns_iff (op : Op) (envs : List Env) (ck : Clerk) (v : Ret) :
    (op.run envs ck).status = .returned v ↔
      ∃ k i r, op.AttemptAt envs ck k i (.replyArrival false r) ∧
        ((r.Err ∈ op.successStatuses ∧ v = op.successValue r) ∨
          (r.Err ∉ op.successStatuses ∧ r.Err ∈ op.failureStatuses ∧ v = op.failureValue)) := by
  rw [run_returned_iff]
  constructor
  · rintro ⟨k, e, hk, hr, hret⟩
    obtain ⟨c, i, r, ha, hv⟩ := (body_ret_iff op e _ v).mp hret
    exact ⟨k, i, r, ⟨e, c, hk, hr, ha⟩, hv⟩
  · rintro ⟨k, i, r, ⟨e, c, hk, hr, ha⟩, hv⟩
    exact ⟨k, e, hk, hr, (body_ret_iff op e _ v).mpr ⟨c, i, r, ha, hv⟩⟩

theorem run_log_sent (op : Op) (envs : List Env) (ck : Clerk) (k : Nat) (d : Dispatch)
    (h : (op.run envs ck).log[k]? = some (some d)) :
    ∃ e, envs[k]? = some e ∧ (op.run (envs.take k) ck).status = .running ∧
      ((∃ c, op.body e (op.run (envs.take k) ck).ck = .next c (some d)) ∨
        (∃ c v, op.body e (op.run (envs.take k) ck).ck = .ret c v d) ∨
        (∃ c, op.body e (op.run (envs.take k) ck).ck = .fatal c d)) := by
  induction envs generalizing ck k with
  | nil => simp [run_nil] at h
  | cons e es ih =>
    cases hb : op.body e ck with
    | next c s =>
      rw [run_cons_next op es hb] at h
      cases k with
      | zero =>
        simp only [List.getElem?_cons_zero, Option.some.injEq] at h
        subst h
        exact ⟨e, by simp, rfl, Or.inl ⟨c, hb⟩⟩
      | succ k =>
        simp only [List.getElem?_cons_succ] at h
        obtain ⟨e1, hk, hr, hd⟩ := ih c k h
        refine ⟨e1, by simpa using hk, ?_, ?_⟩
        · rw [List.take_succ_cons, run_cons_next op _ hb]; exact hr
        · rw [List.take_succ_cons, run_cons_next op _ hb]; exact hd
    | ret c v d1 =>
      rw [run_cons_ret op es hb] at h
      cases k with
      | zero =>
        simp only [List.getElem?_cons_zero, Option.some.injEq] at h
        subst h
        exact ⟨e, by simp, rfl, Or.inr (Or.inl ⟨c, v, hb⟩)⟩
      | succ k => simp at h
    | fatal c d1 =>
      rw [run_cons_fatal op es hb] at h
      cases k with
      | zero =>
        simp only [List.getElem?_cons_zero, Option.some.injEq] at h
        subst h
        exact ⟨e, by simp, rfl, Or.inr (Or.inr ⟨c, hb⟩)⟩
      | succ k => simp at h
    | crash =>
      rw [run_cons_crash op es hb] at h
      simp at h

/-! ## The convergence scenario -/

theorem converging_hit (op : Op) {e : Env} (ck : Clerk) {L : Nat}
    (he : Converging ck.servers.length L e) (hL : L < ck.servers.length) (h0 : 0 ≤ ck.leader)
    (hj : (Int.tmod ck.leader ck.servers.length).toNat = L) :
    ∃ r, r.Err = OK ∧
      op.body e ck =
        .ret { ck with leader := L, seq := ck.seq + 1 } (op.successValue r)
          ⟨L, op.request ck⟩ := by
  obtain ⟨f, hf, hf0⟩ := he.1 L hL
  obtain ⟨r, hr, hOK⟩ := he.2.1 (op.request ck)
  have hs := selectServer_reachable e.serversIsOk ck (by omega) h0 (by rw [hj]; exact hf)
    hf0
  rw [hj] at hs
  have ha : op.Attempt e ck _ L (.replyArrival false r) := ⟨hs, hr⟩
  exact ⟨r, hOK, attempt_success ha (by rw [hOK]; exact OK_mem_success op)⟩

theorem converging_miss (op : Op) {e : Env} {ck : Clerk} {L : Nat}
    (he : Converging ck.servers.length L e) (hL : L < ck.servers.length) (h0 : 0 ≤ ck.leader)
    (hj : (Int.tmod ck.leader ck.servers.length).toNat ≠ L) :
    op.body e ck =
      .next { ck with leader := ((Int.tmod ck.leader ck.servers.length).toNat : Int) + 1 }
        (some ⟨(Int.tmod ck.leader ck.servers.length).toNat, op.request ck⟩) := by
  have hlt := tmod_toNat_lt ck (by omega)
  obtain ⟨f, hf, hf0⟩ := he.1 _ hlt
  obtain ⟨r, hr, hNL⟩ := he.2.2 _ (op.request ck) hlt hj
  have hs := selectServer_reachable e.serversIsOk ck (by omega) h0 hf hf0
  have ha : op.Attempt e ck _ _ (.replyArrival false r) := ⟨hs, hr⟩
  exact attempt_uncertain ha (Or.inr hNL)

theorem hops_step {n L j : Nat} (hj : j < n) (hL : L < n) (hne : j ≠ L) :
    hops n L ((j + 1) % n) + 1 = hops n L j := by
  by_cases h : j + 1 < n
  · rw [Nat.mod_eq_of_lt h]
    unfold hops
    split_ifs <;> omega
  · have h1 : j + 1 = n := by omega
    rw [h1, Nat.mod_self]
    unfold hops
    split_ifs <;> omega

theorem hops_eq_zero {n L j : Nat} (hj : j < n) (h : hops n L j = 0) : j = L := by
  unfold hops at h
  split_ifs at h <;> omega

theorem hops_lt {n L j : Nat} (hj : j < n) (hL : L < n) : hops n L j < n := by
  unfold hops
  split_ifs <;> omega

theorem converging_run (op : Op) (L : Nat) (d : Nat) :
    ∀ (ck : Clerk) (envs : List Env), L < ck.servers.length → 0 ≤ ck.leader →
      hops ck.servers.length L (Int.tmod ck.leader ck.servers.length).toNat = d →
      d < envs.length → (∀ e ∈ envs, Converging ck.servers.length L e) →
      ∃ r, r.Err = OK ∧ (op.run envs ck).status = .returned (op.successValue r) ∧
        (op.run envs ck).ck = { ck with leader := L, seq := ck.seq + 1 } ∧
        (op.run envs ck).log.length = d + 1 ∧
        (op.run envs ck).log.getLast? = some (some ⟨L, op.request ck⟩) := by
  induction d with
  | zero =>
    intro ck envs hL h0 hd hlen henv
    cases envs with
    | nil => simp at hlen
    | cons e es =>
      have hj := hops_eq_zero (tmod_toNat_lt ck (by omega)) hd
      obtain ⟨r, hOK, hb⟩ := converging_hit op ck (henv e (by simp)) hL h0 hj
      refine ⟨r, hOK, ?_⟩
      rw [run_cons_ret op es hb]
      simp
  | succ d ih =>
    intro ck envs hL h0 hd hlen henv
    cases envs with
    | nil => simp at hlen
    | cons e es =>
      have hlt := tmod_toNat_lt ck (by omega)
      have hj : (Int.tmod ck.leader ck.servers.length).toNat ≠ L := by
        intro hj
        rw [hj] at hd
        unfold hops at hd
        simp at hd
      have hb := converging_miss op (henv e (by simp)) hL h0 hj
      have hstep := hops_step hlt hL hj
      have hnext : (Int.tmod (((Int.tmod ck.leader ck.servers.length).toNat : Int) + 1)
          (ck.servers.length : Int)).toNat =
          ((Int.tmod ck.leader ck.servers.length).toNat + 1) % ck.servers.length := by
        rw [Int.tmod_eq_emod (by omega) (by omega)]
        norm_cast
      obtain ⟨r, hOK, h1, h2, h3, h4⟩ := ih
        { ck with leader := ((Int.tmod ck.leader ck.servers.length).toNat : Int) + 1 } es hL
        (by simp only; omega)
        (by simp only; rw [hnext]; omega)
        (by simpa using hlen)
        (fun e1 he1 => henv e1 (by simp [he1]))
      refine ⟨r, hOK, ?_⟩
      rw [run_cons_next op es hb]
      have hreq := request_congr op { ck with leader :=
        ((Int.tmod ck.leader ck.servers.length).toNat : Int) + 1 } ck rfl rfl
      refine ⟨h1, by rw [h2], ?_, ?_⟩
      · show ((some _) :: _).length = d + 1 + 1
        rw [List.length_cons, h3]
      · show ((some _) :: _).getLast? = _
        rw [List.getLast?_cons, h4, hreq]
        rfl

/-! ## C1: the sequence number advances once per operation -/

/-- C1: whenever one of the operations returns, over any finite sequence of passes, the
Clerk's `seq` at the return is its `seq` at entry plus 1, and after every number of passes
at which the operation is still in its loop (every earlier, non-terminal pass) `seq` is what
it was at entry. -/
theorem seq_advances_once_per_operation (op : Op) (envs : List Env) (ck : Clerk) (v : Ret)
    (h : (op.run envs ck).status = .returned v) :
    (op.run envs ck).ck.seq = ck.seq + 1 ∧
      ∀ k, (op.run (envs.take k) ck).status = .running →
        (op.run (envs.take k) ck).ck.seq = ck.seq :=
  ⟨run_returned_seq op envs ck v h, fun k hk => (run_running_seq op (envs.take k) ck hk).1⟩

/-- C1 at work: `Get` over three servers, sent to server 0 (`NoLeader`), past server 1
(flagged down), answered by server 2; after two passes it is still in its loop. -/
theorem seq_advances_once_per_operation_witness :
    ((Op.Get "a").run [demoEnv, demoEnv, demoEnv, demoEnv] demoClerk).status
        = .returned (.Get "v") ∧
      ((Op.Get "a").run [demoEnv, demoEnv, demoEnv, demoEnv] demoClerk).ck.seq
        = demoClerk.seq + 1 ∧
      ((Op.Get "a").run ([demoEnv, demoEnv, demoEnv, demoEnv].take 2) demoClerk).ck.seq
        = demoClerk.seq :=
  ⟨by decide,
    (seq_advances_once_per_operation (Op.Get "a") [demoEnv, demoEnv, demoEnv, demoEnv] demoClerk
      (.Get "v") (by decide)).1,
    (seq_advances_once_per_operation (Op.Get "a") [demoEnv, demoEnv, demoEnv, demoEnv] demoClerk
      (.Get "v") (by decide)).2 2 (by decide)⟩

/-! ## C2: `Duplicate` -/

/-- C2: a reply that arrives (the call succeeded) with status `Duplicate` ends the
operation at that pass, whatever passes would follow: `seq` is advanced by one, and the
caller is handed failure by the four lock operations (`(false, nil)` for `Open` and
`Create`, `false` for `Delete`, `(false, 0)` for `Acquire`) and success by `Get`, which
returns the reply's `Value`, and `PutAppend`. -/
theorem duplicate_ends_operation (op : Op) (e : Env) (es : List Env) (ck c : Clerk) (i : Nat)
    (r : Reply) (h : op.Attempt e ck c i (.replyArrival false r)) (hd : r.Err = Duplicate) :
    op.run (e :: es) ck =
        ⟨.returned (op.onDuplicate r), { ck with leader := i, seq := ck.seq + 1 },
          [some ⟨i, op.request ck⟩]⟩ ∧
      (op.onDuplicate r).ok = !op.isLock := by
  refine ⟨?_, by cases op <;> rfl⟩
  apply run_cons_ret
  rw [attempt_reply h]
  cases op <;>
    simp [Op.successStatuses, Op.failureStatuses, Op.successValue, Op.failureValue,
      Op.onDuplicate, hd, OK, Duplicate, ErrNoKey, OpenError, CreateError, AcquireError]

/-- C2 at work: `Create` under `/x`, answered `Duplicate` by server 0. -/
theorem duplicate_ends_operation_witness :
    (Op.Create ⟨3, "/x"⟩ 0 "y").run
        (⟨[1], fun _ _ => .replyArrival false ⟨Duplicate, "", 0⟩⟩ :: []) ⟨[10], 0, 4, 77, 0⟩ =
        ⟨.returned ((Op.Create ⟨3, "/x"⟩ 0 "y").onDuplicate ⟨Duplicate, "", 0⟩),
          { (⟨[10], 0, 4, 77, 0⟩ : Clerk) with leader := (0 : Nat), seq := 4 + 1 },
          [some ⟨0, (Op.Create ⟨3, "/x"⟩ 0 "y").request ⟨[10], 0, 4, 77, 0⟩⟩]⟩ ∧
      ((Op.Create ⟨3, "/x"⟩ 0 "y").onDuplicate ⟨Duplicate, "", 0⟩).ok =
        !(Op.Create ⟨3, "/x"⟩ 0 "y").isLock :=
  duplicate_ends_operation (Op.Create ⟨3, "/x"⟩ 0 "y")
    ⟨[1], fun _ _ => .replyArrival false ⟨Duplicate, "", 0⟩⟩ [] ⟨[10], 0, 4, 77, 0⟩
    ⟨[10], 0, 4, 77, 0⟩ 0 ⟨Duplicate, "", 0⟩ (by decide) rfl

/-! ## C3: when `Get` returns -/

/-- C3: `Get`, in package `BaseServer` and in package `KvServer` alike, returns `v` if
and only if some pass of the run is an attempt whose call succeeded with a reply of status
`OK`, `ErrNoKey` or `Duplicate` and `v` is the `Value` field of that reply; and when it
returns, `seq` is its value at entry plus one. -/
theorem get_returns_iff (op : Op) (hop : op.isGet = true) (envs : List Env) (ck : Clerk)
    (v : Ret) :
    ((op.run envs ck).status = .returned v ↔
      ∃ k i r, op.AttemptAt envs ck k i (.replyArrival false r) ∧
        (r.Err = OK ∨ r.Err = ErrNoKey ∨ r.Err = Duplicate) ∧ v = .Get r.Value) ∧
    ((op.run envs ck).status = .returned v → (op.run envs ck).ck.seq = ck.seq + 1) := by
  refine ⟨?_, run_returned_seq op envs ck v⟩
  rw [returns_iff]
  have h1 : op.successStatuses = [OK, ErrNoKey, Duplicate] := by
    cases op <;> first | rfl | simp [Op.isGet] at hop
  have h2 : op.failureStatuses = [] := by
    cases op <;> first | rfl | simp [Op.isGet] at hop
  have h3 : ∀ r, op.successValue r = .Get r.Value := by
    intro r
    cases op <;> first | rfl | simp [Op.isGet] at hop
  simp only [h1, h2, h3, List.mem_cons, List.mem_singleton, List.not_mem_nil, false_and,
    and_false, or_false]

/-- C3 at work: `Get` of package `KvServer` over the three servers of `demoEnv`. -/
theorem get_returns_iff_witness :
    (Op.KvGet "a").isGet = true ∧
      ((Op.KvGet "a").run [demoEnv, demoEnv, demoEnv] demoClerk).status = .returned (.Get "v") ∧
      ((Op.KvGet "a").run [demoEnv, demoEnv, demoEnv] demoClerk).ck.seq = demoClerk.seq + 1 :=
  ⟨rfl, by decide,
    (get_returns_iff (Op.KvGet "a") rfl [demoEnv, demoEnv, demoEnv] demoClerk (.Get "v")).2
      (by decide)⟩

/-! ## C4: when `PutAppend` returns -/

/-- `PutAppend`, of package `BaseServer` (`kv = false`) and of package `KvServer`
(`kv = true`), returns if and only if some pass of the run is an attempt whose call
succeeded with a reply of status `OK` or `Duplicate`. -/
theorem putAppend_returns_iff (key value o : String) (kv : Bool) (envs : List Env) (ck : Clerk)
    (v : Ret) :
    ((if kv then Op.KvPutAppend key value o else Op.PutAppend key value o).run envs ck).status
        = .returned v ↔
      ∃ k i r, (if kv then Op.KvPutAppend key value o else Op.PutAppend key value o).AttemptAt
          envs ck k i (.replyArrival false r) ∧
        (r.Err = OK ∨ r.Err = Duplicate) ∧ v = .PutAppend := by
  rw [returns_iff]
  cases kv <;>
    simp [Op.successStatuses, Op.failureStatuses, Op.successValue]

/-- In `PutAppend` of package `BaseServer` every attempt that does not end in an arrived
reply of status `OK` or `Duplicate` (a timeout, a call error, any other status) moves the
hint to the index just tried plus one, leaves `seq` alone and goes round the loop again. -/
theorem base_putAppend_rotates (key value o : String) (e : Env) (es : List Env)
    (ck c : Clerk) (i : Nat) (out : Outcome)
    (h : (Op.PutAppend key value o).Attempt e ck c i out)
    (hout : ∀ r, out = .replyArrival false r → ¬ (r.Err = OK ∨ r.Err = Duplicate)) :
    (Op.PutAppend key value o).body e ck =
        .next { ck with leader := i + 1 } (some ⟨i, (Op.PutAppend key value o).request ck⟩) ∧
      (Op.PutAppend key value o).run (e :: es) ck =
        ((Op.PutAppend key value o).run es { ck with leader := i + 1 }).after
          (some ⟨i, (Op.PutAppend key value o).request ck⟩) := by
  have hn : (Op.PutAppend key value o).body e ck =
      .next { ck with leader := i + 1 }
        (some ⟨i, (Op.PutAppend key value o).request ck⟩) := by
    cases out with
    | timeout => exact attempt_timeout h
    | replyArrival err r =>
      cases err with
      | true => rw [attempt_callError h]; rfl
      | false =>
        have h1 : r.Err ∉ (Op.PutAppend key value o).successStatuses := by
          simpa [Op.successStatuses] using hout r rfl
        rw [attempt_reply h, if_neg h1]
        simp [Op.failureStatuses, Op.isGet]
  exact ⟨hn, run_cons_next_after _ es hn⟩

/-- C4, the failing input: `PutAppend` of package `KvServer` on a Clerk over one reachable
server whose call fails.  The run ends in `log.Fatal` at the first pass, with the hint and
`seq` as they were: the hint is not incremented and there is no further attempt, although a
second pass would have been answered `OK`. -/
theorem kv_putAppend_call_error_exits :
    (Op.KvPutAppend "a" "1" "Put").run
        [⟨[1], fun _ _ => .replyArrival true ⟨"", "", 0⟩⟩,
         ⟨[1], fun _ _ => .replyArrival false ⟨OK, "", 0⟩⟩] ⟨[10], 0, 1, 77, 0⟩ =
      ⟨.fatal, ⟨[10], 0, 1, 77, 0⟩, [some ⟨0, .PutAppend ⟨"a", "1", "Put", 77, 1⟩⟩]⟩ ∧
    (Op.PutAppend "a" "1" "Put").run
        [⟨[1], fun _ _ => .replyArrival true ⟨"", "", 0⟩⟩,
         ⟨[1], fun _ _ => .replyArrival false ⟨OK, "", 0⟩⟩] ⟨[10], 0, 1, 77, 0⟩ =
      ⟨.returned .PutAppend, ⟨[10], 0, 2, 77, 0⟩,
        [some ⟨0, .PutAppend ⟨"a", "1", "Put", 77, 1⟩⟩,
         some ⟨0, .PutAppend ⟨"a", "1", "Put", 77, 1⟩⟩]⟩ := by
  constructor <;> decide

/-! ## C5: the status table of the lock operations -/

/-- C5: in the four lock operations, for an attempt whose call succeeded with reply `r`:
the operation returns success exactly when the status is `OK`, returns failure exactly
when the status is in its terminal-failure set (`OpenError` or `Duplicate` for `Open`,
`CreateError` or `Duplicate` for `Create` and for `Delete`, `AcquireError` or `Duplicate`
for `Acquire`), `seq` being entry plus one at either return; with any other status the
pass does not return: the hint becomes the index just tried plus one, `seq` stays, and the
loop goes round again. -/
theorem lock_status_table (op : Op) (hop : op.isLock = true) (e : Env) (es : List Env)
    (ck c : Clerk) (i : Nat) (r : Reply) (h : op.Attempt e ck c i (.replyArrival false r)) :
    ((∃ c1 v d, op.body e ck = .ret c1 v d ∧ v.ok = true) ↔ r.Err = OK) ∧
    ((∃ c1 v d, op.body e ck = .ret c1 v d ∧ v.ok = false) ↔ r.Err ∈ op.failureStatuses) ∧
    (∀ c1 v d, op.body e ck = .ret c1 v d →
      c1.seq = ck.seq + 1 ∧ op.run (e :: es) ck = ⟨.returned v, c1, [some d]⟩) ∧
    (r.Err ≠ OK → r.Err ∉ op.failureStatuses →
      op.body e ck = .next { ck with leader := i + 1 } (some ⟨i, op.request ck⟩) ∧
      op.run (e :: es) ck =
        (op.run es { ck with leader := i + 1 }).after (some ⟨i, op.request ck⟩)) := by
  have hs := lock_successStatuses hop
  have hOK : r.Err ∈ op.successStatuses ↔ r.Err = OK := by rw [hs]; simp
  refine ⟨⟨?_, ?_⟩, ⟨?_, ?_⟩, ?_, ?_⟩
  · rintro ⟨c1, v, d, hb, hv⟩
    by_contra h1
    by_cases h2 : r.Err ∈ op.failureStatuses
    · rw [attempt_failure h (mt hOK.mp h1) h2] at hb
      injection hb with _ hv2 _
      rw [← hv2, lock_failureValue_ok hop] at hv
      cases hv
    · have h3 := attempt_reply h
      rw [if_neg (mt hOK.mp h1), if_neg h2] at h3
      rw [h3] at hb
      split_ifs at hb
  · intro h1
    exact ⟨_, _, _, attempt_success h (hOK.mpr h1), successValue_ok op r⟩
  · rintro ⟨c1, v, d, hb, hv⟩
    by_cases h1 : r.Err ∈ op.successStatuses
    · rw [attempt_success h h1] at hb
      injection hb with _ hv2 _
      rw [← hv2, successValue_ok] at hv
      cases hv
    · by_contra h2
      have h3 := attempt_reply h
      rw [if_neg h1, if_neg h2] at h3
      rw [h3] at hb
      split_ifs at hb
  · intro h2
    have h1 : r.Err ∉ op.successStatuses := by
      intro h1
      rw [hOK.mp h1] at h2
      exact OK_not_failure op h2
    exact ⟨_, _, _, attempt_failure h h1 h2, lock_failureValue_ok hop⟩
  · intro c1 v d hr
    exact ⟨(body_ret_inv op hr).1, run_cons_ret op es hr⟩
  · intro h1 h2
    have hn : op.body e ck = .next { ck with leader := i + 1 } (some ⟨i, op.request ck⟩) := by
      have h3 := attempt_reply h
      rw [if_neg (mt hOK.mp h1), if_neg h2, lock_not_get hop] at h3
      rw [h3]
      simp
    exact ⟨hn, run_cons_next_after op es hn⟩

/-- C5 at work: `Open` answered with another operation's error status, `CreateError`,
does not return and moves the hint from 0 to 1. -/
theorem lock_status_table_witness :
    (Op.Open "/x").isLock = true ∧
      (Op.Open "/x").Attempt ⟨[1, 1], fun _ _ => .replyArrival false ⟨CreateError, "", 0⟩⟩
        ⟨[10, 11], 2, 1, 77, 0⟩ ⟨[10, 11], 0, 1, 77, 0⟩ 0
        (.replyArrival false ⟨CreateError, "", 0⟩) ∧
      (Op.Open "/x").body ⟨[1, 1], fun _ _ => .replyArrival false ⟨CreateError, "", 0⟩⟩
          ⟨[10, 11], 2, 1, 77, 0⟩ =
        .next ⟨[10, 11], 1, 1, 77, 0⟩ (some ⟨0, .Open ⟨"/x", 77, 1⟩⟩) :=
  ⟨rfl, (by decide),
    ((lock_status_table (Op.Open "/x") rfl
      ⟨[1, 1], fun _ _ => .replyArrival false ⟨CreateError, "", 0⟩⟩ []
      ⟨[10, 11], 2, 1, 77, 0⟩ ⟨[10, 11], 0, 1, 77, 0⟩ 0 ⟨CreateError, "", 0⟩
      (by decide)).2.2.2 (by decide) (by decide)).1⟩

/-! ## C6: call errors -/

/-- What a call error does: `Get` and `PutAppend` of package `BaseServer` move the hint
to the index just tried plus one and go round again; the four lock operations and both
operations of package `KvServer` leave the process through `log.Fatal`. -/
theorem call_error_outcome (op : Op) (e : Env) (es : List Env) (ck c : Clerk) (i : Nat)
    (r : Reply) (h : op.Attempt e ck c i (.replyArrival true r)) :
    op.run (e :: es) ck =
      if op.logsCallError then
        (op.run es { ck with leader := i + 1 }).after (some ⟨i, op.request ck⟩)
      else ⟨.fatal, { ck with leader := i }, [some ⟨i, op.request ck⟩]⟩ := by
  have hb := attempt_callError h
  cases hl : op.logsCallError
  · rw [hl] at hb
    simp only [Bool.false_eq_true, if_false] at hb ⊢
    exact run_cons_fatal op es hb
  · rw [hl] at hb
    simp only [if_true] at hb ⊢
    exact run_cons_next_after op es hb

/-- C6, the failing input: `Open` on a Clerk over one reachable server whose call fails.
The run ends in `log.Fatal` at the first pass: the hint is not incremented and there is no
further attempt.  The same input ends `Create`, `Delete`, `Acquire` and both operations of
package `KvServer` in the same way, while `Get` of package `BaseServer` goes round again
and returns from the second pass. -/
theorem lock_call_error_exits :
    (Op.Open "/x").run
        [⟨[1], fun _ _ => .replyArrival true ⟨"", "", 0⟩⟩,
         ⟨[1], fun _ _ => .replyArrival false ⟨OK, "v", 5⟩⟩] ⟨[10], 0, 1, 77, 0⟩ =
      ⟨.fatal, ⟨[10], 0, 1, 77, 0⟩, [some ⟨0, .Open ⟨"/x", 77, 1⟩⟩]⟩ ∧
    (∀ op : Op, op ∈ [Op.Create ⟨3, "/x"⟩ 0 "y", Op.Delete ⟨3, "/x"⟩ "y" 0,
        Op.Acquire "/x" "y" 3 1, Op.KvGet "a", Op.KvPutAppend "a" "1" "Put"] →
      (op.run
        [⟨[1], fun _ _ => .replyArrival true ⟨"", "", 0⟩⟩,
         ⟨[1], fun _ _ => .replyArrival false ⟨OK, "v", 5⟩⟩] ⟨[10], 0, 1, 77, 0⟩).status
        = .fatal) ∧
    ((Op.Get "a").run
        [⟨[1], fun _ _ => .replyArrival true ⟨"", "", 0⟩⟩,
         ⟨[1], fun _ _ => .replyArrival false ⟨OK, "v", 5⟩⟩] ⟨[10], 0, 1, 77, 0⟩).status
      = .returned (.Get "v") := by
  refine ⟨by decide, ?_, by decide⟩
  intro op hop
  simp only [List.mem_cons, List.mem_singleton, List.not_mem_nil, or_false] at hop
  rcases hop with rfl | rfl | rfl | rfl | rfl <;> decide

/-! ## C7: statuses that are neither terminal nor a sign of leadership uncertainty -/

/-- C7, as stated, fails for `Get`: on a Clerk over one server with hint 0, a `Get`
whose call succeeds with the empty status (neither terminal for `Get` nor `ReElection`
nor `NoLeader`) goes round the loop with the hint still 0, not 1; the same with the status
`OpenError`, and in package `KvServer`. -/
theorem get_keeps_hint_on_other_status :
    (Op.Get "a").Attempt ⟨[1], fun _ _ => .replyArrival false ⟨"", "", 0⟩⟩
        ⟨[10], 0, 1, 77, 0⟩ ⟨[10], 0, 1, 77, 0⟩ 0 (.replyArrival false ⟨"", "", 0⟩) ∧
      ("" : Err) ∉ (Op.Get "a").successStatuses ∧ ("" : Err) ∉ (Op.Get "a").failureStatuses ∧
      ("" : Err) ≠ ReElection ∧ ("" : Err) ≠ NoLeader ∧
      (Op.Get "a").body ⟨[1], fun _ _ => .replyArrival false ⟨"", "", 0⟩⟩ ⟨[10], 0, 1, 77, 0⟩ =
        .next ⟨[10], 0, 1, 77, 0⟩ (some ⟨0, .Get ⟨"a", 77, 1⟩⟩) ∧
      (Op.Get "a").body ⟨[1], fun _ _ => .replyArrival false ⟨"", "", 0⟩⟩ ⟨[10], 0, 1, 77, 0⟩ ≠
        .next ⟨[10], 0 + 1, 1, 77, 0⟩ (some ⟨0, .Get ⟨"a", 77, 1⟩⟩) ∧
      (Op.Get "a").body ⟨[1], fun _ _ => .replyArrival false ⟨OpenError, "", 0⟩⟩
          ⟨[10], 0, 1, 77, 0⟩ =
        .next ⟨[10], 0, 1, 77, 0⟩ (some ⟨0, .Get ⟨"a", 77, 1⟩⟩) ∧
      (Op.KvGet "a").body ⟨[1], fun _ _ => .replyArrival false ⟨"", "", 0⟩⟩ ⟨[10], 0, 1, 77, 0⟩ =
        .next ⟨[10], 0, 1, 77, 0⟩ (some ⟨0, .Get ⟨"a", 77, 1⟩⟩) := by
  refine ⟨(by decide), by decide, by decide, by decide, by decide, by decide, by decide,
    by decide, by decide⟩

/-- C7 as amended: an attempt whose call succeeded with a status that is neither terminal
for the operation nor `ReElection` nor `NoLeader` never returns and leaves `seq` and
`ClientID` as they were; in `PutAppend`, `Open`, `Create`, `Delete` and `Acquire` the hint
becomes the index just tried plus one, in `Get` (of either package) the hint stays at the
index just tried: it is not incremented. -/
theorem other_status_is_not_terminal (op : Op) (e : Env) (es : List Env) (ck c : Clerk)
    (i : Nat) (r : Reply) (h : op.Attempt e ck c i (.replyArrival false r))
    (h1 : r.Err ∉ op.successStatuses) (h2 : r.Err ∉ op.failureStatuses)
    (h3 : r.Err ≠ ReElection) (h4 : r.Err ≠ NoLeader) :
    op.body e ck =
        .next { ck with leader := if op.isGet then (i : Int) else i + 1 }
          (some ⟨i, op.request ck⟩) ∧
      (i : Int) = Int.tmod ck.leader ck.servers.length ∧
      op.run (e :: es) ck =
        (op.run es { ck with leader := if op.isGet then (i : Int) else i + 1 }).after
          (some ⟨i, op.request ck⟩) := by
  have hn := attempt_other h h1 h2 (by rintro (h5 | h5) <;> contradiction)
  exact ⟨hn, (attempt_hint h).2.1, run_cons_next_after op es hn⟩

/-- C7 as amended, at work: `PutAppend` answered `ErrNoKey` by server 0 moves the hint
to 1. -/
theorem other_status_is_not_terminal_witness :
    (Op.PutAppend "a" "1" "Put").Attempt
        ⟨[1], fun _ _ => .replyArrival false ⟨ErrNoKey, "", 0⟩⟩
        ⟨[10], 0, 1, 77, 0⟩ ⟨[10], 0, 1, 77, 0⟩ 0 (.replyArrival false ⟨ErrNoKey, "", 0⟩) ∧
      (Op.PutAppend "a" "1" "Put").body ⟨[1], fun _ _ => .replyArrival false ⟨ErrNoKey, "", 0⟩⟩
          ⟨[10], 0, 1, 77, 0⟩ =
        .next ⟨[10], 1, 1, 77, 0⟩ (some ⟨0, .PutAppend ⟨"a", "1", "Put", 77, 1⟩⟩) :=
  ⟨(by decide),
    (other_status_is_not_terminal (Op.PutAppend "a" "1" "Put")
      ⟨[1], fun _ _ => .replyArrival false ⟨ErrNoKey, "", 0⟩⟩ []
      ⟨[10], 0, 1, 77, 0⟩ ⟨[10], 0, 1, 77, 0⟩ 0 ⟨ErrNoKey, "", 0⟩
      (by decide) (by decide) (by decide) (by decide) (by decide)).1⟩

/-! ## C8: timeout and leadership uncertainty -/

/-- C8: an attempt that ends in a timeout, or in an arrived reply with status `ReElection`
or `NoLeader`, is handled in one and the same way by every operation: the pass does not
return, the hint becomes the index just tried (the hint reduced modulo the number of
servers) plus exactly one, `seq` and `ClientID` are untouched, and the loop goes on with
the next pass. -/
theorem timeout_and_uncertainty_rotate (op : Op) (e : Env) (es : List Env) (ck c : Clerk)
    (i : Nat) (out : Outcome) (h : op.Attempt e ck c i out)
    (hout : out = .timeout ∨
      ∃ r, out = .replyArrival false r ∧ (r.Err = ReElection ∨ r.Err = NoLeader)) :
    op.body e ck = .next { ck with leader := i + 1 } (some ⟨i, op.request ck⟩) ∧
      (i : Int) = Int.tmod ck.leader ck.servers.length ∧
      ({ ck with leader := i + 1 } : Clerk).seq = ck.seq ∧
      ({ ck with leader := i + 1 } : Clerk).ClientID = ck.ClientID ∧
      op.run (e :: es) ck =
        (op.run es { ck with leader := i + 1 }).after (some ⟨i, op.request ck⟩) := by
  have hn : op.body e ck = .next { ck with leader := i + 1 } (some ⟨i, op.request ck⟩) := by
    rcases hout with rfl | ⟨r, rfl, hr⟩
    · exact attempt_timeout h
    · exact attempt_uncertain h hr
  exact ⟨hn, (attempt_hint h).2.1, rfl, rfl, run_cons_next_after op es hn⟩

/-- C8 at work: `Acquire` sent to server 1 of two, which answers `NoLeader`; the hint
goes from 1 to 2. -/
theorem timeout_and_uncertainty_rotate_witness :
    (Op.Acquire "/x" "y" 3 1).Attempt ⟨[1, 1], fun _ _ => .replyArrival false ⟨NoLeader, "", 0⟩⟩
        ⟨[10, 11], 1, 1, 77, 0⟩ ⟨[10, 11], 1, 1, 77, 0⟩ 1
        (.replyArrival false ⟨NoLeader, "", 0⟩) ∧
      (Op.Acquire "/x" "y" 3 1).body ⟨[1, 1], fun _ _ => .replyArrival false ⟨NoLeader, "", 0⟩⟩
          ⟨[10, 11], 1, 1, 77, 0⟩ =
        .next ⟨[10, 11], 2, 1, 77, 0⟩ (some ⟨1, .Acquire ⟨"/x", 77, 1, 3, "y", 1⟩⟩) :=
  ⟨(by decide),
    (timeout_and_uncertainty_rotate (Op.Acquire "/x" "y" 3 1)
      ⟨[1, 1], fun _ _ => .replyArrival false ⟨NoLeader, "", 0⟩⟩ []
      ⟨[10, 11], 1, 1, 77, 0⟩ ⟨[10, 11], 1, 1, 77, 0⟩ 1 (.replyArrival false ⟨NoLeader, "", 0⟩)
      (by decide) (Or.inr ⟨_, rfl, Or.inr rfl⟩)).1⟩

/-! ## C9: the reachability short-circuit -/

/-- C9: in every run of every operation, from every Clerk and under every sequence of
worlds, an RPC is only ever sent to an index whose reachability flag was nonzero in the
slice as it stood in that very pass: if pass `k` of the run sent `d`, then the world of
pass `k` holds a nonzero flag at `d.index`, and `d.index` is the hint the Clerk had at
that pass reduced modulo the number of servers. -/
theorem never_dispatches_to_unreachable (op : Op) (envs : List Env) (ck : Clerk) (k : Nat)
    (d : Dispatch) (h : (op.run envs ck).log[k]? = some (some d)) :
    ∃ e, envs[k]? = some e ∧
      (∃ f, e.serversIsOk[d.index]? = some f ∧ f ≠ 0) ∧
      (d.index : Int) = Int.tmod (op.run (envs.take k) ck).ck.leader ck.servers.length := by
  obtain ⟨e, hk, hr, hd⟩ := run_log_sent op envs ck k d h
  obtain ⟨-, -, h3, h4⟩ := body_sent_reachable op hd
  refine ⟨e, hk, h4, ?_⟩
  rw [h3, run_running_servers op _ ck hr]

/-- C9 at work: in the run of `Get` over `demoEnv`, whose server 1 is flagged down, the
third pass sends to server 2; the second pass sent nothing. -/
theorem never_dispatches_to_unreachable_witness :
    ((Op.Get "a").run [demoEnv, demoEnv, demoEnv] demoClerk).log[2]? =
        some (some ⟨2, .Get ⟨"a", 77, 1⟩⟩) ∧
      ((Op.Get "a").run [demoEnv, demoEnv, demoEnv] demoClerk).log[1]? = some none ∧
      ∃ e, [demoEnv, demoEnv, demoEnv][2]? = some e ∧
        (∃ f, e.serversIsOk[(⟨2, .Get ⟨"a", 77, 1⟩⟩ : Dispatch).index]? = some f ∧ f ≠ 0) ∧
        ((⟨2, .Get ⟨"a", 77, 1⟩⟩ : Dispatch).index : Int) =
          Int.tmod ((Op.Get "a").run ([demoEnv, demoEnv, demoEnv].take 2) demoClerk).ck.leader
            demoClerk.servers.length :=
  ⟨by decide, by decide,
    never_dispatches_to_unreachable (Op.Get "a") [demoEnv, demoEnv, demoEnv] demoClerk 2
      ⟨2, .Get ⟨"a", 77, 1⟩⟩ (by decide)⟩

/-! ## C10: convergence to the leader -/

theorem allUpEnv_converging : Converging 3 2 allUpEnv := by
  refine ⟨?_, ?_, ?_⟩
  · intro i hi
    interval_cases i <;> exact ⟨1, rfl, by decide⟩
  · intro req
    exact ⟨_, rfl, rfl⟩
  · intro i req hi hne
    interval_cases i
    · exact ⟨_, rfl, rfl⟩
    · exact ⟨_, rfl, rfl⟩
    · exact absurd rfl hne

/-- C10: over `serverCount >= 1` servers that are all flagged reachable, of which the
index `L` always answers `OK` and every other index always answers `NoLeader`, every
operation started from any (non-negative) hint and given at least `serverCount` passes
returns success; it goes through at most `serverCount` passes, every one but the last
being a rotation of the hint, so at most `serverCount - 1` rotations; the last request is
the one sent to `L`; the hint is left equal to `L`; and every operation that follows on
the Clerk so left returns from its first pass, having sent a single request, to `L`. -/
theorem leader_convergence (op : Op) (ck : Clerk) (L : Nat) (envs : List Env)
    (hL : L < ck.servers.length) (h0 : 0 ≤ ck.leader)
    (henv : ∀ e ∈ envs, Converging ck.servers.length L e)
    (hlen : ck.servers.length ≤ envs.length) :
    (∃ v, (op.run envs ck).status = .returned v ∧ v.ok = true) ∧
      (op.run envs ck).log.length - 1 ≤ ck.servers.length - 1 ∧
      (op.run envs ck).log.getLast? = some (some ⟨L, op.request ck⟩) ∧
      (op.run envs ck).ck.leader = L ∧
      ∀ (next : Op) (e : Env) (es : List Env), Converging ck.servers.length L e →
        (∃ v, (next.run (e :: es) (op.run envs ck).ck).status = .returned v ∧ v.ok = true) ∧
          (next.run (e :: es) (op.run envs ck).ck).log =
            [some ⟨L, next.request (op.run envs ck).ck⟩] ∧
          (next.run (e :: es) (op.run envs ck).ck).ck.leader = L := by
  have hlt := tmod_toNat_lt ck (by omega)
  obtain ⟨r, -, h1, h2, h3, h4⟩ := converging_run op L _ ck envs hL h0 rfl
    (lt_of_lt_of_le (hops_lt hlt hL) hlen) henv
  refine ⟨⟨_, h1, successValue_ok op r⟩, by rw [h3]; have := hops_lt hlt hL; omega, h4,
    by rw [h2], ?_⟩
  intro next e es he
  rw [h2]
  have hj : (Int.tmod (L : Int) (ck.servers.length : Int)).toNat = L := by
    rw [Int.tmod_eq_emod (by omega) (by omega), Int.emod_eq_of_lt (by omega) (by omega)]
    simp
  obtain ⟨r2, -, hb⟩ := converging_hit next
    { ck with leader := L, seq := ck.seq + 1 } he hL (by simp) hj
  rw [run_cons_ret next es hb]
  exact ⟨⟨_, rfl, successValue_ok next r2⟩, rfl, rfl⟩

/-- C10 at work: `Open` on a Clerk over three servers whose hint is 7 (so that the first
index tried is 1), the leader being server 2: one rotation, and the hint is left at 2. -/
theorem leader_convergence_witness :
    ((Op.Open "/x").run [allUpEnv, allUpEnv, allUpEnv] ⟨[10, 11, 12], 7, 1, 77, 0⟩).status =
        .returned (.Open true (some ⟨5, "/x"⟩)) ∧
      ((Op.Open "/x").run [allUpEnv, allUpEnv, allUpEnv] ⟨[10, 11, 12], 7, 1, 77, 0⟩).log =
        [some ⟨1, .Open ⟨"/x", 77, 1⟩⟩, some ⟨2, .Open ⟨"/x", 77, 1⟩⟩] ∧
      ((Op.Open "/x").run [allUpEnv, allUpEnv, allUpEnv] ⟨[10, 11, 12], 7, 1, 77, 0⟩).log.length
          - 1 ≤ (⟨[10, 11, 12], 7, 1, 77, 0⟩ : Clerk).servers.length - 1 ∧
      ((Op.Open "/x").run [allUpEnv, allUpEnv, allUpEnv] ⟨[10, 11, 12], 7, 1, 77, 0⟩).ck.leader
        = (2 : Nat) :=
  ⟨by decide, by decide,
    (leader_convergence (Op.Open "/x") ⟨[10, 11, 12], 7, 1, 77, 0⟩ 2
      [allUpEnv, allUpEnv, allUpEnv] (by decide) (by decide)
      (fun e he => by
        simp only [List.mem_cons, List.mem_singleton, List.not_mem_nil, or_false, or_self] at he
        subst he
        exact allUpEnv_converging)
      (by decide)).2.1,
    (leader_convergence (Op.Open "/x") ⟨[10, 11, 12], 7, 1, 77, 0⟩ 2
      [allUpEnv, allUpEnv, allUpEnv] (by decide) (by decide)
      (fun e he => by
        simp only [List.mem_cons, List.mem_singleton, List.not_mem_nil, or_false, or_self] at he
        subst he
        exact allUpEnv_converging)
      (by decide)).2.2.2.1⟩

/-! ## Frame of a run, sessions, skips and safety of the head of the loop -/

theorem body_fatal_inv (op : Op) {e : Env} {ck c : Clerk} {d : Dispatch}
    (h : op.body e ck = .fatal c d) :
    c.seq = ck.seq ∧ c.ClientID = ck.ClientID ∧ c.servers = ck.servers ∧
      c.serversIsOk = ck.serversIsOk := by
  cases hs : selectServer e.serversIsOk ck with
  | crash => rw [body_crash op hs] at h; cases h
  | skip c0 => rw [body_skip op hs] at h; cases h
  | dispatch c0 i =>
    have hc0 := (selectServer_dispatch hs).1
    cases ho : e.call i (op.request ck) with
    | timeout => rw [body_timeout op hs ho] at h; cases h
    | replyArrival err r =>
      cases err with
      | true =>
        rw [body_callError op hs ho] at h
        split_ifs at h
        injection h with h1 h2
        subst h1; subst hc0
        simp
      | false =>
        rw [body_reply op hs ho] at h
        split_ifs at h

theorem run_frame (op : Op) (envs : List Env) (ck : Clerk) :
    (op.run envs ck).ck.ClientID = ck.ClientID ∧ (op.run envs ck).ck.servers = ck.servers ∧
      (op.run envs ck).ck.serversIsOk = ck.serversIsOk := by
  induction envs generalizing ck with
  | nil => simp [run_nil]
  | cons e es ih =>
    cases hb : op.body e ck with
    | next c s =>
      rw [run_cons_next op es hb]
      have hi := body_next_inv op hb
      have := ih c
      simp only
      rw [this.1, this.2.1, this.2.2, hi.2.1, hi.2.2.1, hi.2.2.2]
      exact ⟨rfl, rfl, rfl⟩
    | ret c v d =>
      rw [run_cons_ret op es hb]
      have hi := body_ret_inv op hb
      exact ⟨hi.2.1, hi.2.2.1, hi.2.2.2.1⟩
    | fatal c d =>
      rw [run_cons_fatal op es hb]
      have hi := body_fatal_inv op hb
      exact ⟨hi.2.1, hi.2.2.1, hi.2.2.2⟩
    | crash =>
      rw [run_cons_crash op es hb]
      exact ⟨rfl, rfl, rfl⟩

theorem run_log_request (op : Op) (envs : List Env) (ck : Clerk) (k : Nat) (d : Dispatch)
    (h : (op.run envs ck).log[k]? = some (some d)) : d.request = op.request ck := by
  obtain ⟨e, -, hr, hd⟩ := run_log_sent op envs ck k d h
  obtain ⟨-, h2, -, -⟩ := body_sent_reachable op hd
  have hs := run_running_seq op _ ck hr
  rw [h2]
  exact request_congr op _ ck hs.1 hs.2

theorem mem_sent_iff (r : Run) (d : Dispatch) :
    d ∈ r.sent ↔ ∃ k : Nat, r.log[k]? = some (some d) := by
  unfold Run.sent
  rw [List.mem_filterMap]
  constructor
  · rintro ⟨a, ha, hd⟩
    simp only [id_eq] at hd
    subst hd
    obtain ⟨k, hk⟩ := List.mem_iff_getElem?.mp ha
    exact ⟨k, hk⟩
  · rintro ⟨k, hk⟩
    exact ⟨some d, List.mem_iff_getElem?.mpr ⟨k, hk⟩, rfl⟩

theorem request_ClientID (op : Op) (ck : Clerk) : (op.request ck).ClientID = ck.ClientID := by
  cases op <;> rfl

theorem request_SeqNo (op : Op) (ck : Clerk) : (op.request ck).SeqNo = ck.seq := by
  cases op <;> rfl

theorem session_getElem (ops : List (Op × List Env)) (ck : Clerk) (j : Nat) (r : Run)
    (h : (session ops ck)[j]? = some r) :
    ∃ op envs c, ops[j]? = some (op, envs) ∧ r = op.run envs c ∧ c.seq = ck.seq + j ∧
      c.ClientID = ck.ClientID ∧ c.servers = ck.servers ∧ c.serversIsOk = ck.serversIsOk := by
  induction ops generalizing ck j with
  | nil => simp [session] at h
  | cons o rest ih =>
    obtain ⟨op, envs⟩ := o
    cases j with
    | zero =>
      simp only [session, List.getElem?_cons_zero, Option.some.injEq] at h
      exact ⟨op, envs, ck, by simp, h.symm, by simp, rfl, rfl, rfl⟩
    | succ j =>
      simp only [session, List.getElem?_cons_succ] at h
      cases hst : (op.run envs ck).status with
      | returned v =>
        rw [hst] at h
        simp only at h
        obtain ⟨op1, envs1, c, h1, h2, h3, h4, h5, h6⟩ := ih _ j h
        have hf := run_frame op envs ck
        refine ⟨op1, envs1, c, by simpa using h1, h2, ?_, ?_, ?_, ?_⟩
        · rw [h3, run_returned_seq op envs ck v hst]; push_cast; ring
        · rw [h4, hf.1]
        · rw [h5, hf.2.1]
        · rw [h6, hf.2.2]
      | running => rw [hst] at h; simp at h
      | fatal => rw [hst] at h; simp at h
      | crash => rw [hst] at h; simp at h

theorem run_returned_last (op : Op) (envs : List Env) (ck : Clerk) (v : Ret)
    (h : (op.run envs ck).status = .returned v) :
    ∃ d, (op.run envs ck).log.getLast? = some (some d) ∧
      (op.run envs ck).ck.leader = d.index ∧ d.index < ck.servers.length := by
  induction envs generalizing ck with
  | nil => simp [run_nil] at h
  | cons e es ih =>
    cases hb : op.body e ck with
    | next c s =>
      rw [run_cons_next op es hb] at h ⊢
      simp only at h ⊢
      obtain ⟨d, h1, h2, h3⟩ := ih c h
      refine ⟨d, ?_, h2, ?_⟩
      · rw [List.getLast?_cons, h1]; rfl
      · rw [← (body_next_inv op hb).2.2.1]; exact h3
    | ret c v1 d =>
      rw [run_cons_ret op es hb]
      obtain ⟨-, -, -, -, h5, h6, -⟩ := body_ret_inv op hb
      exact ⟨d, rfl, h5, h6⟩
    | fatal c d => rw [run_cons_fatal op es hb] at h; simp at h
    | crash => rw [run_cons_crash op es hb] at h; simp at h

theorem selectServer_unreachable (flags : List Int) (ck : Clerk)
    (hn : 0 < ck.servers.length) (h0 : 0 ≤ ck.leader)
    (hf : flags[(Int.tmod ck.leader ck.servers.length).toNat]? = some 0) :
    selectServer flags ck =
      .skip { ck with leader := Int.tmod ck.leader ck.servers.length + 1 } := by
  have h1 : ¬ ((ck.servers.length : Int) = 0) := by omega
  have h2 : ¬ (Int.tmod ck.leader ck.servers.length < 0) :=
    not_lt.mpr (Int.tmod_nonneg _ h0)
  unfold selectServer
  simp only
  rw [if_neg h1, if_neg h2, hf]
  simp

theorem selectServer_safe (flags : List Int) (ck : Clerk)
    (hn : 0 < ck.servers.length) (h0 : 0 ≤ ck.leader) (hlen : ck.servers.length ≤ flags.length) :
    selectServer flags ck ≠ .crash := by
  have hlt := tmod_toNat_lt ck hn
  have hget : flags[(Int.tmod ck.leader ck.servers.length).toNat]? =
      some (flags[(Int.tmod ck.leader ck.servers.length).toNat]) :=
    List.getElem?_eq_getElem (by omega)
  by_cases hf : flags[(Int.tmod ck.leader ck.servers.length).toNat] = 0
  · rw [hf] at hget
    rw [selectServer_unreachable flags ck hn h0 hget]
    simp
  · rw [selectServer_reachable flags ck hn h0 hget hf]
    simp

theorem body_crash_inv (op : Op) {e : Env} {ck : Clerk} (h : op.body e ck = .crash) :
    selectServer e.serversIsOk ck = .crash := by
  cases hs : selectServer e.serversIsOk ck with
  | crash => rfl
  | skip c0 => rw [body_skip op hs] at h; cases h
  | dispatch c0 i =>
    cases ho : e.call i (op.request ck) with
    | timeout => rw [body_timeout op hs ho] at h; cases h
    | replyArrival err r =>
      cases err with
      | true =>
        rw [body_callError op hs ho] at h
        split_ifs at h
      | false =>
        rw [body_reply op hs ho] at h
        split_ifs at h

theorem body_clerk_leader (op : Op) {e : Env} {ck c : Clerk}
    (h : (∃ s, op.body e ck = .next c s) ∨ (∃ v d, op.body e ck = .ret c v d) ∨
      (∃ d, op.body e ck = .fatal c d)) :
    c.leader = Int.tmod ck.leader ck.servers.length ∨
      c.leader = Int.tmod ck.leader ck.servers.length + 1 := by
  cases hs : selectServer e.serversIsOk ck with
  | crash =>
    rw [body_crash op hs] at h
    rcases h with ⟨s, h⟩ | ⟨v, d, h⟩ | ⟨d, h⟩ <;> cases h
  | skip c0 =>
    rw [body_skip op hs] at h
    have hc0 := selectServer_skip hs
    rcases h with ⟨s, h⟩ | ⟨v, d, h⟩ | ⟨d, h⟩ <;> cases h
    subst hc0
    exact Or.inr rfl
  | dispatch c0 i =>
    have hc0 := (selectServer_dispatch hs).1
    subst hc0
    cases ho : e.call i (op.request ck) with
    | timeout =>
      rw [body_timeout op hs ho] at h
      rcases h with ⟨s, h⟩ | ⟨v, d, h⟩ | ⟨d, h⟩ <;> cases h
      exact Or.inr rfl
    | replyArrival err r =>
      cases err with
      | true =>
        rw [body_callError op hs ho] at h
        split_ifs at h <;> rcases h with ⟨s, h⟩ | ⟨v, d, h⟩ | ⟨d, h⟩ <;> cases h
        · exact Or.inr rfl
        · exact Or.inl rfl
      | false =>
        rw [body_reply op hs ho] at h
        split_ifs at h <;> rcases h with ⟨s, h⟩ | ⟨v, d, h⟩ | ⟨d, h⟩ <;> cases h <;>
          first | exact Or.inl rfl | exact Or.inr rfl

theorem run_safe (op : Op) (envs : List Env) (ck : Clerk) (hn : 0 < ck.servers.length)
    (hflags : ∀ e ∈ envs, ck.servers.length ≤ e.serversIsOk.length) (h0 : 0 ≤ ck.leader) :
    (op.run envs ck).status ≠ .crash ∧ 0 ≤ (op.run envs ck).ck.leader := by
  induction envs generalizing ck with
  | nil => simp [run_nil, h0]
  | cons e es ih =>
    have hnn : 0 ≤ Int.tmod ck.leader ck.servers.length := Int.tmod_nonneg _ h0
    cases hb : op.body e ck with
    | next c s =>
      rw [run_cons_next op es hb]
      have hsv := (body_next_inv op hb).2.2.1
      have hl := body_clerk_leader op (Or.inl ⟨s, hb⟩)
      exact ih c (by rw [hsv]; exact hn)
        (fun e1 he1 => by rw [hsv]; exact hflags e1 (by simp [he1])) (by omega)
    | ret c v d =>
      rw [run_cons_ret op es hb]
      have hl := body_clerk_leader op (Or.inr (Or.inl ⟨v, d, hb⟩))
      exact ⟨by simp, by simp only; omega⟩
    | fatal c d =>
      rw [run_cons_fatal op es hb]
      have hl := body_clerk_leader op (Or.inr (Or.inr ⟨d, hb⟩))
      exact ⟨by simp, by simp only; omega⟩
    | crash =>
      exact absurd (body_crash_inv op hb)
        (selectServer_safe _ ck hn h0 (hflags e (by simp)))

theorem dispatch_logged (op : Op) {e : Env} (es : List Env) {ck c : Clerk} {i : Nat}
    (hs : selectServer e.serversIsOk ck = .dispatch c i) :
    ∃ tl, (op.run (e :: es) ck).log = some ⟨i, op.request ck⟩ :: tl := by
  cases ho : e.call i (op.request ck) with
  | timeout =>
    rw [run_cons_next op es (body_timeout op hs ho)]
    exact ⟨_, rfl⟩
  | replyArrival err r =>
    cases err with
    | true =>
      have hb := body_callError op hs ho
      cases hl : op.logsCallError
      · rw [hl] at hb
        simp only [Bool.false_eq_true, if_false] at hb
        rw [run_cons_fatal op es hb]
        exact ⟨_, rfl⟩
      · rw [hl] at hb
        simp only [if_true] at hb
        rw [run_cons_next op es hb]
        exact ⟨_, rfl⟩
    | false =>
      have hb := body_reply op hs ho
      split_ifs at hb
      · rw [run_cons_ret op es hb]; exact ⟨_, rfl⟩
      · rw [run_cons_ret op es hb]; exact ⟨_, rfl⟩
      · rw [run_cons_next op es hb]; exact ⟨_, rfl⟩
      · rw [run_cons_next op es hb]; exact ⟨_, rfl⟩
      · rw [run_cons_next op es hb]; exact ⟨_, rfl⟩

theorem tmod_succ_toNat (ck : Clerk) (hn : 0 < ck.servers.length) (h0 : 0 ≤ ck.leader) :
    (Int.tmod (Int.tmod ck.leader ck.servers.length + 1) ck.servers.length).toNat =
      ((Int.tmod ck.leader ck.servers.length).toNat + 1) % ck.servers.length := by
  have hnn : 0 ≤ Int.tmod ck.leader ck.servers.length := Int.tmod_nonneg _ h0
  have hc : Int.tmod ck.leader ck.servers.length =
      ((Int.tmod ck.leader ck.servers.length).toNat : Int) := (Int.toNat_of_nonneg hnn).symm
  rw [Int.tmod_eq_emod (by omega) (by omega)]
  conv_lhs => rw [hc]
  norm_cast

theorem skips_then_dispatch (op : Op) (flags : List Int) (s : Nat) :
    ∀ (ck : Clerk) (envs : List Env), 0 < ck.servers.length → 0 ≤ ck.leader →
      (∀ e ∈ envs, e.serversIsOk = flags) → s < envs.length →
      (∀ t, t < s →
        flags[((Int.tmod ck.leader ck.servers.length).toNat + t) % ck.servers.length]? = some 0) →
      (∃ f, flags[((Int.tmod ck.leader ck.servers.length).toNat + s) % ck.servers.length]?
        = some f ∧ f ≠ 0) →
      (op.run envs ck).log.take (s + 1) =
        List.replicate s none ++
          [some ⟨((Int.tmod ck.leader ck.servers.length).toNat + s) % ck.servers.length,
            op.request ck⟩] := by
  induction s with
  | zero =>
    intro ck envs hn h0 henv hlen _ hf
    have hlt := tmod_toNat_lt ck hn
    cases envs with
    | nil => simp at hlen
    | cons e es =>
      obtain ⟨f, hf, hf0⟩ := hf
      have hidx : ((Int.tmod ck.leader ck.servers.length).toNat + 0) % ck.servers.length =
          (Int.tmod ck.leader ck.servers.length).toNat := by
        rw [Nat.add_zero, Nat.mod_eq_of_lt hlt]
      rw [hidx] at hf ⊢
      have hs := selectServer_reachable e.serversIsOk ck hn h0
        (by rw [henv e (by simp)]; exact hf) hf0
      obtain ⟨tl, htl⟩ := dispatch_logged op es hs
      rw [htl]
      simp
  | succ s ih =>
    intro ck envs hn h0 henv hlen hskip hf
    have hlt := tmod_toNat_lt ck hn
    cases envs with
    | nil => simp at hlen
    | cons e es =>
      have hz := hskip 0 (by omega)
      rw [Nat.add_zero, Nat.mod_eq_of_lt hlt] at hz
      have hs := selectServer_unreachable e.serversIsOk ck hn h0
        (by rw [henv e (by simp)]; exact hz)
      have hb := body_skip op hs
      rw [run_cons_next op es hb]
      have hnext := tmod_succ_toNat ck hn h0
      have hshift : ∀ t, ((Int.tmod (Int.tmod ck.leader ck.servers.length + 1)
          ck.servers.length).toNat + t) % ck.servers.length =
          ((Int.tmod ck.leader ck.servers.length).toNat + (t + 1)) % ck.servers.length := by
        intro t
        rw [hnext, Nat.mod_add_mod]
        congr 1
        omega
      have hnn : 0 ≤ Int.tmod ck.leader ck.servers.length := Int.tmod_nonneg _ h0
      have := ih { ck with leader := Int.tmod ck.leader ck.servers.length + 1 } es hn
        (by simp only; omega) (fun e1 he1 => henv e1 (by simp [he1])) (by simpa using hlen)
        (fun t ht => by
          simp only
          rw [hshift t]
          exact hskip (t + 1) (by omega))
        (by
          simp only
          rw [hshift s]
          exact hf)
      simp only at this
      rw [hshift s] at this
      simp only [List.take_succ_cons, List.replicate_succ, List.cons_append]
      rw [this, request_congr op
        { ck with leader := Int.tmod ck.leader ck.servers.length + 1 } ck rfl rfl]

theorem all_down_skips (op : Op) (flags : List Int) (envs : List Env) :
    ∀ (ck : Clerk), 0 < ck.servers.length → 0 ≤ ck.leader →
      (∀ e ∈ envs, e.serversIsOk = flags) →
      (∀ i, i < ck.servers.length → flags[i]? = some 0) →
      (op.run envs ck).status = .running ∧
        (op.run envs ck).log = List.replicate envs.length none := by
  induction envs with
  | nil => intro ck _ _ _ _; exact ⟨rfl, rfl⟩
  | cons e es ih =>
    intro ck hn h0 henv hdown
    have hlt := tmod_toNat_lt ck hn
    have hs := selectServer_unreachable e.serversIsOk ck hn h0
      (by rw [henv e (by simp)]; exact hdown _ hlt)
    rw [run_cons_next op es (body_skip op hs)]
    have hnn : 0 ≤ Int.tmod ck.leader ck.servers.length := Int.tmod_nonneg _ h0
    obtain ⟨h1, h2⟩ := ih { ck with leader := Int.tmod ck.leader ck.servers.length + 1 } hn
      (by simp only; omega) (fun e1 he1 => henv e1 (by simp [he1])) hdown
    exact ⟨h1, by simp only [List.length_cons, List.replicate_succ]; rw [h2]⟩

theorem add_hops_mod {n i j : Nat} (hi : i < n) (hj : j < n) : (j + hops n i j) % n = i := by
  unfold hops
  split_ifs with h
  · rw [show j + (i - j) = i by omega, Nat.mod_eq_of_lt hi]
  · rw [show j + (i + n - j) = i + n by omega, Nat.add_mod_right, Nat.mod_eq_of_lt hi]

theorem kv_body_eq (base kvop : Op)
    (hpair : (∃ key, base = .Get key ∧ kvop = .KvGet key) ∨
      (∃ key value o, base = .PutAppend key value o ∧ kvop = .KvPutAppend key value o))
    (e : Env) (ck : Clerk)
    (hno : ∀ c i r, ¬ base.Attempt e ck c i (.replyArrival true r)) :
    kvop.body e ck = base.body e ck := by
  have hreq : kvop.request ck = base.request ck := by
    rcases hpair with ⟨key, rfl, rfl⟩ | ⟨key, value, o, rfl, rfl⟩ <;> rfl
  cases hs : selectServer e.serversIsOk ck with
  | crash => rw [body_crash kvop hs, body_crash base hs]
  | skip c0 => rw [body_skip kvop hs, body_skip base hs]
  | dispatch c0 i =>
    cases ho : e.call i (base.request ck) with
    | timeout =>
      rw [body_timeout kvop hs (by rw [hreq]; exact ho), body_timeout base hs ho, hreq]
    | replyArrival err r =>
      cases err with
      | true => exact absurd ⟨hs, ho⟩ (hno c0 i r)
      | false =>
        rw [body_reply kvop hs (by rw [hreq]; exact ho), body_reply base hs ho, hreq]
        rcases hpair with ⟨key, rfl, rfl⟩ | ⟨key, value, o, rfl, rfl⟩ <;> rfl

theorem kv_run_eq (base kvop : Op)
    (hpair : (∃ key, base = .Get key ∧ kvop = .KvGet key) ∨
      (∃ key value o, base = .PutAppend key value o ∧ kvop = .KvPutAppend key value o))
    (envs : List Env) :
    ∀ ck : Clerk, (∀ k i r, ¬ base.AttemptAt envs ck k i (.replyArrival true r)) →
      kvop.run envs ck = base.run envs ck := by
  induction envs with
  | nil => intro ck _; rfl
  | cons e es ih =>
    intro ck hno
    have hb := kv_body_eq base kvop hpair e ck (fun c i r ha =>
      hno 0 i r ⟨e, c, by simp, rfl, ha⟩)
    cases hbase : base.body e ck with
    | next c s =>
      rw [hbase] at hb
      rw [run_cons_next kvop es hb, run_cons_next base es hbase]
      rw [ih c (fun k i r ⟨e1, c1, hk, hr, ha⟩ => hno (k + 1) i r
        ⟨e1, c1, by simpa using hk,
          by rw [List.take_succ_cons, run_cons_next base _ hbase]; exact hr,
          by rw [List.take_succ_cons, run_cons_next base _ hbase]; exact ha⟩)]
    | ret c v d =>
      rw [hbase] at hb
      rw [run_cons_ret kvop es hb, run_cons_ret base es hbase]
    | fatal c d =>
      rw [hbase] at hb
      rw [run_cons_fatal kvop es hb, run_cons_fatal base es hbase]
    | crash =>
      rw [hbase] at hb
      rw [run_cons_crash kvop es hb, run_cons_crash base es hbase]

/-! ## C11: one identity and one sequence number per operation -/

/-- C11: in a session of operations run one after the other on a Clerk `ck`, the
operation number `j` (from 0) is entered with the `ClientID` of `ck` and with `seq` equal
to that of `ck` plus `j`; every request it sends, on its first attempt and on every retry,
is the request built from that Clerk, so that all of them carry this same `ClientID` and
this same `SeqNo`; and the operation leaves `ClientID` as it was.  On a Clerk fresh from
`MakeClerk` (of either package) with identity `sonyflake`, the operation number `k = j + 1`,
whatever the kinds of the operations, therefore sends `ClientID = sonyflake` and
`SeqNo = k` on all of its attempts: 1, 2, 3, ... without a gap. -/
theorem retries_share_identity_and_seq (ops : List (Op × List Env)) (ck : Clerk) (j : Nat)
    (r : Run) (h : (session ops ck)[j]? = some r) :
    (∃ op envs c, ops[j]? = some (op, envs) ∧ r = op.run envs c ∧
        c.ClientID = ck.ClientID ∧ c.seq = ck.seq + j ∧
        ∀ d ∈ r.sent, d.request = op.request c) ∧
      (∀ d ∈ r.sent, d.request.ClientID = ck.ClientID ∧ d.request.SeqNo = ck.seq + j) ∧
      r.ck.ClientID = ck.ClientID ∧
      ∀ servers IsOk draw sonyflake,
        (BaseServer.MakeClerk servers IsOk draw sonyflake = some ck ∨
          KvServer.MakeClerk servers IsOk draw sonyflake = some ck) →
        ∀ d ∈ r.sent, d.request.ClientID = sonyflake ∧ d.request.SeqNo = (j : Int) + 1 := by
  obtain ⟨op, envs, c, h1, h2, h3, h4, -, -⟩ := session_getElem ops ck j r h
  have hreq : ∀ d ∈ r.sent, d.request = op.request c := by
    intro d hd
    obtain ⟨k, hk⟩ := (mem_sent_iff r d).mp hd
    rw [h2] at hk
    exact run_log_request op envs c k d hk
  have hid : ∀ d ∈ r.sent, d.request.ClientID = ck.ClientID ∧ d.request.SeqNo = ck.seq + j := by
    intro d hd
    rw [hreq d hd, request_ClientID, request_SeqNo, h3, h4]
    exact ⟨rfl, rfl⟩
  refine ⟨⟨op, envs, c, h1, h2, h4, h3, hreq⟩, hid, ?_, ?_⟩
  · rw [h2, (run_frame op envs c).1, h4]
  · intro servers IsOk draw sonyflake hmk d hd
    have hck : ck.ClientID = sonyflake ∧ ck.seq = 1 := by
      rcases hmk with hmk | hmk
      · unfold BaseServer.MakeClerk at hmk
        split at hmk
        · cases hmk
        · injection hmk with hmk; subst hmk; exact ⟨rfl, rfl⟩
      · unfold KvServer.MakeClerk at hmk
        split at hmk
        · cases hmk
        · injection hmk with hmk; subst hmk; exact ⟨rfl, rfl⟩
    obtain ⟨hd1, hd2⟩ := hid d hd
    rw [hd1, hd2, hck.1, hck.2]
    exact ⟨rfl, by ring⟩

/-- C11 at work: on `demoClerk` (fresh: `seq = 1`), a `PutAppend` whose three attempts,
to servers 0, 1 and 2, all carry `SeqNo = 1`, and then a `Get`, whose request carries
`SeqNo = 2`. -/
theorem retries_share_identity_and_seq_witness :
    (session [(Op.PutAppend "a" "1" "Put", [allUpEnv, allUpEnv, allUpEnv]),
        (Op.Get "a", [demoEnv, demoEnv, demoEnv])] demoClerk)[1]? =
        some ((Op.Get "a").run [demoEnv, demoEnv, demoEnv] ⟨[10, 11, 12], 2, 2, 77, 0⟩) ∧
      ((Op.Get "a").run [demoEnv, demoEnv, demoEnv] ⟨[10, 11, 12], 2, 2, 77, 0⟩).sent =
        [⟨2, .Get ⟨"a", 77, 2⟩⟩] ∧
      ((Op.PutAppend "a" "1" "Put").run [allUpEnv, allUpEnv, allUpEnv] demoClerk).sent =
        [⟨0, .PutAppend ⟨"a", "1", "Put", 77, 1⟩⟩, ⟨1, .PutAppend ⟨"a", "1", "Put", 77, 1⟩⟩,
          ⟨2, .PutAppend ⟨"a", "1", "Put", 77, 1⟩⟩] ∧
      (⟨2, .Get ⟨"a", 77, 2⟩⟩ : Dispatch).request.ClientID = demoClerk.ClientID ∧
      (⟨2, .Get ⟨"a", 77, 2⟩⟩ : Dispatch).request.SeqNo = demoClerk.seq + (1 : Nat) :=
  ⟨by decide, by decide, by decide,
    (retries_share_identity_and_seq
      [(Op.PutAppend "a" "1" "Put", [allUpEnv, allUpEnv, allUpEnv]),
        (Op.Get "a", [demoEnv, demoEnv, demoEnv])] demoClerk 1
      ((Op.Get "a").run [demoEnv, demoEnv, demoEnv] ⟨[10, 11, 12], 2, 2, 77, 0⟩)
      (by decide)).2.1 ⟨2, .Get ⟨"a", 77, 2⟩⟩ (by decide)⟩

/-! ## C12: what an `OK` reply yields -/

/-- C12: when the reply that ends the operation has status `OK` (`r`, arrived from a
call that succeeded), `Open(pathname)` returns `(true, fd)` with `fd.PathName = pathname`
and `fd.InstanceSeq = r.InstanceSeq`; `Create(fd, type, filename)` returns `(true, fd1)`
with `fd1.PathName = fd.PathName + "/" + filename` and `fd1.InstanceSeq = r.InstanceSeq`;
`Acquire` returns `(true, r.InstanceSeq)`.  The descriptor handed to `Create` is only read:
every request of every attempt of the operation, the first and the last, carries the
`PathName` and the `InstanceSeq` the descriptor had at the call. -/
theorem ok_reply_results (e : Env) (es : List Env) (ck c : Clerk) (i : Nat) (r : Reply)
    (hOK : r.Err = OK) :
    (∀ pathname, (Op.Open pathname).Attempt e ck c i (.replyArrival false r) →
      ((Op.Open pathname).run (e :: es) ck).status =
        .returned (.Open true (some ⟨r.InstanceSeq, pathname⟩))) ∧
    (∀ fd fileType filename,
      (Op.Create fd fileType filename).Attempt e ck c i (.replyArrival false r) →
      ((Op.Create fd fileType filename).run (e :: es) ck).status =
        .returned (.Create true (some ⟨r.InstanceSeq, fd.PathName ++ "/" ++ filename⟩))) ∧
    (∀ pathname filename instanceseq lockType,
      (Op.Acquire pathname filename instanceseq lockType).Attempt e ck c i
        (.replyArrival false r) →
      ((Op.Acquire pathname filename instanceseq lockType).run (e :: es) ck).status =
        .returned (.Acquire true r.InstanceSeq)) ∧
    (∀ fd fileType filename envs, ∀ d ∈ ((Op.Create fd fileType filename).run envs ck).sent,
      ∃ a, d.request = .Create a ∧ a.PathName = fd.PathName ∧
        a.InstanceSeq = fd.InstanceSeq ∧ a.FileType = fileType ∧ a.FileName = filename) := by
  have key : ∀ op : Op, op.Attempt e ck c i (.replyArrival false r) →
      (op.run (e :: es) ck).status = .returned (op.successValue r) := by
    intro op ha
    rw [run_cons_ret op es (attempt_success ha (by rw [hOK]; exact OK_mem_success op))]
  refine ⟨fun p ha => key _ ha, fun fd t f ha => key _ ha, fun p f s l ha => key _ ha, ?_⟩
  intro fd fileType filename envs d hd
  obtain ⟨k, hk⟩ := (mem_sent_iff _ d).mp hd
  rw [run_log_request _ envs ck k d hk]
  exact ⟨_, rfl, rfl, rfl, rfl, rfl⟩

/-- C12 at work, the scenario of the spec: `Open("/x")` answered `OK` with instance 5
yields the descriptor `{5, "/x"}`; `Create` of `"y"` under that descriptor, answered `OK`
with instance 6, yields the descriptor `{6, "/x/y"}`. -/
theorem ok_reply_results_witness :
    (Op.Open "/x").Attempt ⟨[1], fun _ _ => .replyArrival false ⟨OK, "", 5⟩⟩
        ⟨[10], 0, 1, 77, 0⟩ ⟨[10], 0, 1, 77, 0⟩ 0 (.replyArrival false ⟨OK, "", 5⟩) ∧
      ((Op.Open "/x").run [⟨[1], fun _ _ => .replyArrival false ⟨OK, "", 5⟩⟩]
          ⟨[10], 0, 1, 77, 0⟩).status =
        .returned (.Open true (some ⟨(⟨OK, "", 5⟩ : Reply).InstanceSeq, "/x"⟩)) ∧
      (session [(Op.Open "/x", [⟨[1], fun _ _ => .replyArrival false ⟨OK, "", 5⟩⟩]),
          (Op.Create ⟨5, "/x"⟩ 0 "y", [⟨[1], fun _ _ => .replyArrival false ⟨OK, "", 6⟩⟩])]
          ⟨[10], 0, 1, 77, 0⟩).map (fun r => r.status) =
        [.returned (.Open true (some ⟨5, "/x"⟩)), .returned (.Create true (some ⟨6, "/x/y"⟩))] :=
  ⟨by decide,
    (ok_reply_results ⟨[1], fun _ _ => .replyArrival false ⟨OK, "", 5⟩⟩ []
      ⟨[10], 0, 1, 77, 0⟩ ⟨[10], 0, 1, 77, 0⟩ 0 ⟨OK, "", 5⟩ rfl).1 "/x" (by decide),
    by decide⟩

/-! ## C13: `MakeClerk` -/

/-- C13: for every non-empty server list, every value drawn from the random source and
every value of the identity source, `MakeClerk` (of package `BaseServer` and of package
`KvServer`) returns a Clerk whose `seq` is 1, whose hint lies in `[0, serverCount)`, whose
`ClientID` is the value of the identity source, and whose server list and reachability
pointer are the ones passed in. -/
theorem makeClerk_contract (servers : List Nat) (IsOk draw sonyflake : Nat)
    (h : servers ≠ []) :
    ∃ ck, BaseServer.MakeClerk servers IsOk draw sonyflake = some ck ∧
      KvServer.MakeClerk servers IsOk draw sonyflake = some ck ∧
      ck.seq = 1 ∧ 0 ≤ ck.leader ∧ ck.leader < servers.length ∧
      ck.ClientID = sonyflake ∧ ck.servers = servers ∧ ck.serversIsOk = IsOk := by
  have hn : 0 < servers.length := List.length_pos.mpr h
  have hI : Intn draw servers.length = some ((draw : Int) % servers.length) := by
    unfold Intn
    rw [if_neg (by omega)]
  refine ⟨⟨servers, (draw : Int) % servers.length, 1, sonyflake, IsOk⟩, ?_, ?_, rfl, ?_, ?_,
    rfl, rfl, rfl⟩
  · unfold BaseServer.MakeClerk
    rw [hI]
  · unfold KvServer.MakeClerk
    rw [hI]
  · exact Int.emod_nonneg _ (by omega)
  · exact Int.emod_lt_of_pos _ (by omega)

/-- C13 at work: three servers, the random source yielding 7; the hint is 1. -/
theorem makeClerk_contract_witness :
    BaseServer.MakeClerk [10, 11, 12] 0 7 77 = some ⟨[10, 11, 12], 1, 1, 77, 0⟩ ∧
      ∃ ck, BaseServer.MakeClerk [10, 11, 12] 0 7 77 = some ck ∧
        KvServer.MakeClerk [10, 11, 12] 0 7 77 = some ck ∧
        ck.seq = 1 ∧ 0 ≤ ck.leader ∧ ck.leader < ([10, 11, 12] : List Nat).length ∧
        ck.ClientID = 77 ∧ ck.servers = [10, 11, 12] ∧ ck.serversIsOk = 0 :=
  ⟨by decide, makeClerk_contract [10, 11, 12] 0 7 77 (by decide)⟩

/-! ## C14: server selection -/

/-- C14: on a Clerk over `n >= 1` servers with a non-negative hint `h`, the reachability
slice being fixed, of at least `n` flags.  If some flag among the `n` is nonzero, there is
a number `s <= n - 1` of skips such that the indices `h mod n`, `(h mod n + 1) mod n`, ...
tried before the `s`-th all hold the flag 0, the index `j = (h mod n + s) mod n` holds a
nonzero flag, and every run of every operation granted more than `s` passes begins with
`s` passes that send nothing followed by a pass that sends the request to `j`.  If all `n`
flags are 0, every run, however many passes it is granted, is still in its loop at the
end of them and has sent nothing in any pass. -/
theorem server_selection (op : Op) (ck : Clerk) (flags : List Int)
    (hn : 1 ≤ ck.servers.length) (h0 : 0 ≤ ck.leader) (hlen : ck.servers.length ≤ flags.length) :
    ((∃ i, i < ck.servers.length ∧ flags[i]? ≠ some 0) →
      ∃ s j, s ≤ ck.servers.length - 1 ∧
        j = ((Int.tmod ck.leader ck.servers.length).toNat + s) % ck.servers.length ∧
        (∃ f, flags[j]? = some f ∧ f ≠ 0) ∧
        (∀ t, t < s →
          flags[((Int.tmod ck.leader ck.servers.length).toNat + t) % ck.servers.length]?
            = some 0) ∧
        ∀ envs : List Env, (∀ e ∈ envs, e.serversIsOk = flags) → s < envs.length →
          (op.run envs ck).log.take (s + 1) =
            List.replicate s none ++ [some ⟨j, op.request ck⟩]) ∧
    ((∀ i, i < ck.servers.length → flags[i]? = some 0) →
      ∀ envs : List Env, (∀ e ∈ envs, e.serversIsOk = flags) →
        (op.run envs ck).status = .running ∧
          (op.run envs ck).log = List.replicate envs.length none) := by
  have hpos : 0 < ck.servers.length := by omega
  have hlt := tmod_toNat_lt ck hpos
  have hval : ∀ i, i < ck.servers.length → ∃ f, flags[i]? = some f := fun i hi =>
    ⟨_, List.getElem?_eq_getElem (by omega)⟩
  refine ⟨?_, fun hdown envs henv => all_down_skips op flags envs ck hpos h0 henv hdown⟩
  rintro ⟨i, hi, hne⟩
  classical
  have hex : ∃ t, ∃ f,
      flags[((Int.tmod ck.leader ck.servers.length).toNat + t) % ck.servers.length]? = some f ∧
        f ≠ 0 := by
    refine ⟨hops ck.servers.length i (Int.tmod ck.leader ck.servers.length).toNat, ?_⟩
    rw [add_hops_mod hi hlt]
    obtain ⟨f, hf⟩ := hval i hi
    exact ⟨f, hf, fun h => hne (by rw [hf, h])⟩
  have hle : Nat.find hex ≤ hops ck.servers.length i (Int.tmod ck.leader ck.servers.length).toNat := by
    apply Nat.find_min'
    rw [add_hops_mod hi hlt]
    obtain ⟨f, hf⟩ := hval i hi
    exact ⟨f, hf, fun h => hne (by rw [hf, h])⟩
  have hbound := hops_lt hlt hi
  have hskip : ∀ t, t < Nat.find hex →
      flags[((Int.tmod ck.leader ck.servers.length).toNat + t) % ck.servers.length]?
        = some 0 := by
    intro t ht
    obtain ⟨f, hf⟩ := hval _ (Nat.mod_lt ((Int.tmod ck.leader ck.servers.length).toNat + t) hpos)
    have hmin := Nat.find_min hex ht
    by_cases hf0 : f = 0
    · rw [hf, hf0]
    · exact absurd ⟨f, hf, hf0⟩ hmin
  refine ⟨Nat.find hex, _, by omega, rfl, Nat.find_spec hex, hskip, ?_⟩
  intro envs henv hlen2
  exact skips_then_dispatch op flags _ ck envs hpos h0 henv hlen2 hskip (Nat.find_spec hex)

/-- C14 at work: on `demoClerk` with hint 1 over the flags `[1, 0, 1]`, `Get` skips
server 1 without a request and sends to server 2; over the flags `[0, 0, 0]` three
passes send nothing and leave it in its loop. -/
theorem server_selection_witness :
    ((Op.Get "a").run [demoEnv, demoEnv] ⟨[10, 11, 12], 1, 1, 77, 0⟩).log.take 2 =
        [none, some ⟨2, .Get ⟨"a", 77, 1⟩⟩] ∧
      ((Op.Get "a").run
          [⟨[0, 0, 0], fun _ _ => .timeout⟩, ⟨[0, 0, 0], fun _ _ => .timeout⟩,
            ⟨[0, 0, 0], fun _ _ => .timeout⟩] ⟨[10, 11, 12], 1, 1, 77, 0⟩).status = .running ∧
      ((Op.Get "a").run
          [⟨[0, 0, 0], fun _ _ => .timeout⟩, ⟨[0, 0, 0], fun _ _ => .timeout⟩,
            ⟨[0, 0, 0], fun _ _ => .timeout⟩] ⟨[10, 11, 12], 1, 1, 77, 0⟩).log =
        List.replicate 3 none :=
  ⟨by decide,
    ((server_selection (Op.Get "a") ⟨[10, 11, 12], 1, 1, 77, 0⟩ [0, 0, 0] (by decide)
      (by decide) (by decide)).2
      (fun i hi => by
        have hi3 : i < 3 := hi
        interval_cases i <;> rfl)
      [⟨[0, 0, 0], fun _ _ => .timeout⟩, ⟨[0, 0, 0], fun _ _ => .timeout⟩,
        ⟨[0, 0, 0], fun _ _ => .timeout⟩]
      (fun e he => by
        simp only [List.mem_cons, List.mem_singleton, List.not_mem_nil, or_false, or_self] at he
        subst he
        rfl)).1,
    ((server_selection (Op.Get "a") ⟨[10, 11, 12], 1, 1, 77, 0⟩ [0, 0, 0] (by decide)
      (by decide) (by decide)).2
      (fun i hi => by
        have hi3 : i < 3 := hi
        interval_cases i <;> rfl)
      [⟨[0, 0, 0], fun _ _ => .timeout⟩, ⟨[0, 0, 0], fun _ _ => .timeout⟩,
        ⟨[0, 0, 0], fun _ _ => .timeout⟩]
      (fun e he => by
        simp only [List.mem_cons, List.mem_singleton, List.not_mem_nil, or_false, or_self] at he
        subst he
        rfl)).2⟩

/-! ## C15: a terminal outcome leaves the hint on the server that answered -/

/-- C15: when an operation returns, with success or with failure, the hint of the Clerk
lies in `[0, serverCount)` and is the index the last request of the run was sent to, the
server whose reply ended the operation: the terminal pass has not incremented it.  The
next operation on that Clerk therefore starts from that same server: the hint reduced
modulo the number of servers is that index, and any attempt made by the first pass of
any following operation goes to it. -/
theorem terminal_outcome_keeps_hint (op : Op) (envs : List Env) (ck : Clerk) (v : Ret)
    (h : (op.run envs ck).status = .returned v) :
    0 ≤ (op.run envs ck).ck.leader ∧ (op.run envs ck).ck.leader < ck.servers.length ∧
      ∃ d, (op.run envs ck).log.getLast? = some (some d) ∧
        (op.run envs ck).ck.leader = d.index ∧
        Int.tmod (op.run envs ck).ck.leader (op.run envs ck).ck.servers.length = d.index ∧
        ∀ (next : Op) (e : Env) (c : Clerk) (i : Nat) (out : Outcome),
          next.Attempt e (op.run envs ck).ck c i out → i = d.index := by
  obtain ⟨d, h1, h2, h3⟩ := run_returned_last op envs ck v h
  have hsv := (run_frame op envs ck).2.1
  have htm : Int.tmod (op.run envs ck).ck.leader (op.run envs ck).ck.servers.length
      = d.index := by
    rw [h2, hsv, Int.tmod_eq_emod (by omega) (by omega), Int.emod_eq_of_lt (by omega) (by omega)]
  refine ⟨by rw [h2]; omega, by rw [h2]; omega, d, h1, h2, htm, ?_⟩
  intro next e c i out ha
  have := (attempt_hint ha).2.1
  rw [htm] at this
  exact_mod_cast this

/-- C15 at work: `Delete` on two servers from hint 1; a timeout at server 1, `OpenError`
(not terminal for `Delete`) at server 0, `CreateError` at server 1: it returns failure
and the hint is left at 1. -/
theorem terminal_outcome_keeps_hint_witness :
    ((Op.Delete ⟨1, "/x"⟩ "y" 0).run
        [⟨[1, 1], fun _ _ => .timeout⟩,
         ⟨[1, 1], fun _ _ => .replyArrival false ⟨OpenError, "", 0⟩⟩,
         ⟨[1, 1], fun _ _ => .replyArrival false ⟨CreateError, "", 0⟩⟩]
        ⟨[10, 11], 1, 1, 77, 0⟩).status = .returned (.Delete false) ∧
      ((Op.Delete ⟨1, "/x"⟩ "y" 0).run
        [⟨[1, 1], fun _ _ => .timeout⟩,
         ⟨[1, 1], fun _ _ => .replyArrival false ⟨OpenError, "", 0⟩⟩,
         ⟨[1, 1], fun _ _ => .replyArrival false ⟨CreateError, "", 0⟩⟩]
        ⟨[10, 11], 1, 1, 77, 0⟩).ck.leader = 1 ∧
      ((Op.Delete ⟨1, "/x"⟩ "y" 0).run
        [⟨[1, 1], fun _ _ => .timeout⟩,
         ⟨[1, 1], fun _ _ => .replyArrival false ⟨OpenError, "", 0⟩⟩,
         ⟨[1, 1], fun _ _ => .replyArrival false ⟨CreateError, "", 0⟩⟩]
        ⟨[10, 11], 1, 1, 77, 0⟩).ck.leader < (⟨[10, 11], 1, 1, 77, 0⟩ : Clerk).servers.length :=
  ⟨by decide, by decide,
    (terminal_outcome_keeps_hint (Op.Delete ⟨1, "/x"⟩ "y" 0)
      [⟨[1, 1], fun _ _ => .timeout⟩,
       ⟨[1, 1], fun _ _ => .replyArrival false ⟨OpenError, "", 0⟩⟩,
       ⟨[1, 1], fun _ _ => .replyArrival false ⟨CreateError, "", 0⟩⟩]
      ⟨[10, 11], 1, 1, 77, 0⟩ (.Delete false) (by decide)).2.1⟩

/-! ## C16: index safety -/

/-- C16: on a Clerk over `serverCount >= 1` servers whose hint is non-negative (as
`MakeClerk` leaves it), with the reachability slice holding at least `serverCount` flags in
every pass, no run of any operation stops on a run-time panic (no division by zero, no
index out of range, on the slice or on the server list); the hint is non-negative after
every number of passes; at every pass the index computed by `ck.leader %= cnt`, with
which the slice is read and the server picked, lies in `[0, serverCount)`; and every
request is sent to an index of `[0, serverCount)`. -/
theorem index_safety (op : Op) (envs : List Env) (ck : Clerk) (hn : 1 ≤ ck.servers.length)
    (hflags : ∀ e ∈ envs, ck.servers.length ≤ e.serversIsOk.length) (h0 : 0 ≤ ck.leader) :
    (op.run envs ck).status ≠ .crash ∧
      (∀ k, (op.run (envs.take k) ck).status ≠ .crash ∧
        0 ≤ (op.run (envs.take k) ck).ck.leader ∧
        0 ≤ Int.tmod (op.run (envs.take k) ck).ck.leader ck.servers.length ∧
        Int.tmod (op.run (envs.take k) ck).ck.leader ck.servers.length < ck.servers.length) ∧
      ∀ d ∈ (op.run envs ck).sent, d.index < ck.servers.length := by
  refine ⟨(run_safe op envs ck hn hflags h0).1, ?_, ?_⟩
  · intro k
    have hk := run_safe op (envs.take k) ck hn
      (fun e he => hflags e (List.mem_of_mem_take he)) h0
    exact ⟨hk.1, hk.2, Int.tmod_nonneg _ hk.2, Int.tmod_lt_of_pos _ (by omega)⟩
  · intro d hd
    obtain ⟨k, hk⟩ := (mem_sent_iff _ d).mp hd
    obtain ⟨e, -, hr, hb⟩ := run_log_sent op envs ck k d hk
    have := (body_sent_reachable op hb).1
    rwa [run_running_servers op _ ck hr] at this

/-- C16 at work: `Get` on `demoClerk` over `demoEnv` (three servers, three flags). -/
theorem index_safety_witness :
    ((Op.Get "a").run [demoEnv, demoEnv, demoEnv] demoClerk).status ≠ .crash ∧
      0 ≤ ((Op.Get "a").run ([demoEnv, demoEnv, demoEnv].take 2) demoClerk).ck.leader ∧
      ((Op.Get "a").run [demoEnv, demoEnv, demoEnv] demoClerk).sent =
        [⟨0, .Get ⟨"a", 77, 1⟩⟩, ⟨2, .Get ⟨"a", 77, 1⟩⟩] :=
  ⟨(index_safety (Op.Get "a") [demoEnv, demoEnv, demoEnv] demoClerk (by decide)
      (fun e he => by
        simp only [List.mem_cons, List.mem_singleton, List.not_mem_nil, or_false, or_self] at he
        subst he
        decide)
      (by decide)).1,
    ((index_safety (Op.Get "a") [demoEnv, demoEnv, demoEnv] demoClerk (by decide)
      (fun e he => by
        simp only [List.mem_cons, List.mem_singleton, List.not_mem_nil, or_false, or_self] at he
        subst he
        decide)
      (by decide)).2.1 2).2.1,
    by decide⟩

/-! ## C17: the Clerk of `KvServer` against the Clerk of `BaseServer` -/

/-- C17: `Get` and `PutAppend` of package `KvServer` against `Get` and `PutAppend` of
package `BaseServer`, from the same Clerk over the same passes.  If no attempt of the
`BaseServer` run ends in a call error, the two runs are equal: the same requests (server
index, `ClientID`, `SeqNo`, arguments) pass for pass, the same final Clerk (hint and `seq`)
and the same end (the same return value).  On an attempt that ends in a call error they
part: `KvServer` leaves the process through `log.Fatal`, `BaseServer` moves the hint to the
index just tried plus one and goes round the loop again. -/
theorem kv_matches_base (base kvop : Op)
    (hpair : (∃ key, base = .Get key ∧ kvop = .KvGet key) ∨
      (∃ key value o, base = .PutAppend key value o ∧ kvop = .KvPutAppend key value o))
    (envs : List Env) (ck : Clerk) :
    ((∀ k i r, ¬ base.AttemptAt envs ck k i (.replyArrival true r)) →
      kvop.run envs ck = base.run envs ck) ∧
    (∀ (e : Env) (es : List Env) (c : Clerk) (i : Nat) (r : Reply),
      base.Attempt e ck c i (.replyArrival true r) →
      kvop.run (e :: es) ck = ⟨.fatal, { ck with leader := i }, [some ⟨i, base.request ck⟩]⟩ ∧
        base.run (e :: es) ck =
          (base.run es { ck with leader := i + 1 }).after (some ⟨i, base.request ck⟩)) := by
  refine ⟨kv_run_eq base kvop hpair envs ck, ?_⟩
  intro e es c i r ha
  have hreq : kvop.request ck = base.request ck := by
    rcases hpair with ⟨key, rfl, rfl⟩ | ⟨key, value, o, rfl, rfl⟩ <;> rfl
  have hkv : kvop.Attempt e ck c i (.replyArrival true r) := ⟨ha.1, by rw [hreq]; exact ha.2⟩
  have h1 := attempt_callError hkv
  have h2 := attempt_callError ha
  have hl1 : kvop.logsCallError = false := by
    rcases hpair with ⟨key, rfl, rfl⟩ | ⟨key, value, o, rfl, rfl⟩ <;> rfl
  have hl2 : base.logsCallError = true := by
    rcases hpair with ⟨key, rfl, rfl⟩ | ⟨key, value, o, rfl, rfl⟩ <;> rfl
  rw [hl1, hreq] at h1
  rw [hl2] at h2
  simp only [Bool.false_eq_true, if_false] at h1
  simp only [if_true] at h2
  exact ⟨run_cons_fatal kvop es h1, run_cons_next_after base es h2⟩

/-- C17 at work: over `demoEnv`, where no call fails, `Get` of `KvServer` runs as `Get`
of `BaseServer` does. -/
theorem kv_matches_base_witness :
    (Op.KvGet "a").run [demoEnv, demoEnv, demoEnv] demoClerk =
        (Op.Get "a").run [demoEnv, demoEnv, demoEnv] demoClerk ∧
      ((Op.Get "a").run [demoEnv, demoEnv, demoEnv] demoClerk).status = .returned (.Get "v") :=
  ⟨(kv_matches_base (Op.Get "a") (Op.KvGet "a") (Or.inl ⟨"a", rfl, rfl⟩)
      [demoEnv, demoEnv, demoEnv] demoClerk).1
      (fun k i r ⟨e, c, hk, _, ha⟩ => by
        have he : e = demoEnv := by
          have hmem : e ∈ [demoEnv, demoEnv, demoEnv] := List.mem_iff_getElem?.mpr ⟨k, hk⟩
          simp only [List.mem_cons, List.mem_singleton, List.not_mem_nil, or_false, or_self]
            at hmem
          exact hmem
        subst he
        have h2 := ha.2
        simp only [demoEnv] at h2
        split_ifs at h2 <;> cases h2),
    by decide⟩

end Hummingbird
